import Mathlib

/-!
Verification of the ownership-scoped CRUD layer (secured field controller,
auth helpers, profile helpers) of this repository, against its
natural-language specification.

The JavaScript sources are shallowly embedded: JS values are modelled by
`JVal`, the backing document store by `Store`, and each controller action
(`find`, `findOne`, `update`) by a pure Lean function threading the store.
External collaborators that the spec places out of scope (query validation,
payload sanitization, output serialization) are modelled as the identity.
-/

namespace StrapiExplore

/-- Model of a JavaScript value as it appears in records, payloads and
queries.  `Option JVal` is used throughout for "value or `undefined`"
(`none` = `undefined`); `JVal.null` is JS `null`. Numbers are integers
(no floats occur in the modelled code paths). -/
inductive JVal where
  | null
  | bool (b : Bool)
  | num (n : Int)
  | str (s : String)
  | obj (fields : List (String × JVal))
  | arr (elems : List JVal)
deriving Repr

mutual

/-- Decidable equality on `JVal` (written out because automatic deriving
does not handle the nested `List` occurrences). -/
def decEqJVal : (a b : JVal) → Decidable (a = b)
  | .null, .null => .isTrue rfl
  | .bool a, .bool b =>
    match decEq a b with
    | .isTrue h => .isTrue (by rw [h])
    | .isFalse h => .isFalse (fun e => h (JVal.bool.inj e))
  | .num a, .num b =>
    match decEq a b with
    | .isTrue h => .isTrue (by rw [h])
    | .isFalse h => .isFalse (fun e => h (JVal.num.inj e))
  | .str a, .str b =>
    match decEq a b with
    | .isTrue h => .isTrue (by rw [h])
    | .isFalse h => .isFalse (fun e => h (JVal.str.inj e))
  | .obj a, .obj b =>
    match decEqJFields a b with
    | .isTrue h => .isTrue (by rw [h])
    | .isFalse h => .isFalse (fun e => h (JVal.obj.inj e))
  | .arr a, .arr b =>
    match decEqJList a b with
    | .isTrue h => .isTrue (by rw [h])
    | .isFalse h => .isFalse (fun e => h (JVal.arr.inj e))
  | .null, .bool _ => .isFalse (fun h => JVal.noConfusion h)
  | .null, .num _ => .isFalse (fun h => JVal.noConfusion h)
  | .null, .str _ => .isFalse (fun h => JVal.noConfusion h)
  | .null, .obj _ => .isFalse (fun h => JVal.noConfusion h)
  | .null, .arr _ => .isFalse (fun h => JVal.noConfusion h)
  | .bool _, .null => .isFalse (fun h => JVal.noConfusion h)
  | .bool _, .num _ => .isFalse (fun h => JVal.noConfusion h)
  | .bool _, .str _ => .isFalse (fun h => JVal.noConfusion h)
  | .bool _, .obj _ => .isFalse (fun h => JVal.noConfusion h)
  | .bool _, .arr _ => .isFalse (fun h => JVal.noConfusion h)
  | .num _, .null => .isFalse (fun h => JVal.noConfusion h)
  | .num _, .bool _ => .isFalse (fun h => JVal.noConfusion h)
  | .num _, .str _ => .isFalse (fun h => JVal.noConfusion h)
  | .num _, .obj _ => .isFalse (fun h => JVal.noConfusion h)
  | .num _, .arr _ => .isFalse (fun h => JVal.noConfusion h)
  | .str _, .null => .isFalse (fun h => JVal.noConfusion h)
  | .str _, .bool _ => .isFalse (fun h => JVal.noConfusion h)
  | .str _, .num _ => .isFalse (fun h => JVal.noConfusion h)
  | .str _, .obj _ => .isFalse (fun h => JVal.noConfusion h)
  | .str _, .arr _ => .isFalse (fun h => JVal.noConfusion h)
  | .obj _, .null => .isFalse (fun h => JVal.noConfusion h)
  | .obj _, .bool _ => .isFalse (fun h => JVal.noConfusion h)
  | .obj _, .num _ => .isFalse (fun h => JVal.noConfusion h)
  | .obj _, .str _ => .isFalse (fun h => JVal.noConfusion h)
  | .obj _, .arr _ => .isFalse (fun h => JVal.noConfusion h)
  | .arr _, .null => .isFalse (fun h => JVal.noConfusion h)
  | .arr _, .bool _ => .isFalse (fun h => JVal.noConfusion h)
  | .arr _, .num _ => .isFalse (fun h => JVal.noConfusion h)
  | .arr _, .str _ => .isFalse (fun h => JVal.noConfusion h)
  | .arr _, .obj _ => .isFalse (fun h => JVal.noConfusion h)

/-- Decidable equality for field lists of `JVal` objects. -/
def decEqJFields : (a b : List (String × JVal)) → Decidable (a = b)
  | [], [] => .isTrue rfl
  | [], _ :: _ => .isFalse (fun h => List.noConfusion h)
  | _ :: _, [] => .isFalse (fun h => List.noConfusion h)
  | (k1, v1) :: r1, (k2, v2) :: r2 =>
    match decEq k1 k2 with
    | .isFalse h => .isFalse (fun e => h (by cases e; rfl))
    | .isTrue h1 =>
      match decEqJVal v1 v2 with
      | .isFalse h => .isFalse (fun e => h (by cases e; rfl))
      | .isTrue h2 =>
        match decEqJFields r1 r2 with
        | .isFalse h => .isFalse (fun e => h (by cases e; rfl))
        | .isTrue h3 => .isTrue (by rw [h1, h2, h3])

/-- Decidable equality for element lists of `JVal` arrays. -/
def decEqJList : (a b : List JVal) → Decidable (a = b)
  | [], [] => .isTrue rfl
  | [], _ :: _ => .isFalse (fun h => List.noConfusion h)
  | _ :: _, [] => .isFalse (fun h => List.noConfusion h)
  | v1 :: r1, v2 :: r2 =>
    match decEqJVal v1 v2 with
    | .isFalse h => .isFalse (fun e => h (by cases e; rfl))
    | .isTrue h1 =>
      match decEqJList r1 r2 with
      | .isFalse h => .isFalse (fun e => h (by cases e; rfl))
      | .isTrue h2 => .isTrue (by rw [h1, h2])

end

instance : DecidableEq JVal := decEqJVal

instance {ε α : Type _} [DecidableEq ε] [DecidableEq α] : DecidableEq (Except ε α) :=
  fun a b =>
    match a, b with
    | .ok x, .ok y =>
      if h : x = y then .isTrue (by rw [h]) else .isFalse (fun e => h (Except.ok.inj e))
    | .error x, .error y =>
      if h : x = y then .isTrue (by rw [h]) else .isFalse (fun e => h (Except.error.inj e))
    | .ok _, .error _ => .isFalse (fun e => Except.noConfusion e)
    | .error _, .ok _ => .isFalse (fun e => Except.noConfusion e)

namespace JVal

/-- JS truthiness. (`NaN` is not modelled; no modelled path produces it.) -/
def truthy : JVal → Bool
  | .null => false
  | .bool b => b
  | .num n => n ≠ 0
  | .str s => s ≠ ""
  | .obj _ => true
  | .arr _ => true

/-- Property access `v[k]` on a JS value: `none` is `undefined`.
Primitives and arrays have no named own-properties relevant to the
modelled code (no path segment like `length` occurs in the sources). -/
def getField : JVal → String → Option JVal
  | .obj fs, k => fs.lookup k
  | _, _ => none

/-- `typeof v === 'object'` (true for objects, arrays and `null`). -/
def isObjectType : JVal → Bool
  | .null => true
  | .obj _ => true
  | .arr _ => true
  | _ => false

/-- `isObject` from makeProfileFieldController.js:
`typeof v === 'object' && v !== null`. -/
def isObject : JVal → Bool
  | .obj _ => true
  | .arr _ => true
  | _ => false

end JVal

/-- JS strict equality `a === b` between two defined values.  Structural
equality; faithful for the primitive (number / string / boolean / null)
comparisons the sources perform.  (JS compares objects by reference; the
sources only ever compare identifiers, so no object-object comparison
with distinct but structurally equal objects occurs on a modelled path.) -/
def jsEq (a b : JVal) : Bool := decide (a = b)

/-- JS strict equality between a defined value and a possibly-`undefined`
value (`undefined` is equal only to `undefined`, and `a` is defined). -/
def jsEqOpt (a : JVal) (b : Option JVal) : Bool :=
  match b with
  | some v => jsEq a v
  | none => false

/-! Character-level string helpers.  (The embedding avoids the core
string functions implemented by well-founded recursion so that every
definition reduces inside the kernel; these structural versions agree
with JS semantics on the ASCII inputs the modelled code handles.) -/

/-- ASCII lower-casing of one character (JS `toLowerCase` restricted to
the ASCII range of the modelled inputs). -/
def jsCharLower (c : Char) : Char :=
  if 'A' ≤ c ∧ c ≤ 'Z' then Char.ofNat (c.toNat + 32) else c

/-- JS `String.prototype.toLowerCase()` (ASCII). -/
def jsToLower (s : String) : String :=
  (s.data.map jsCharLower).asString

/-- JS `String.prototype.split('.')` on a character list. -/
def jsSplitDotChars : List Char → List (List Char)
  | [] => [[]]
  | '.' :: rest => [] :: jsSplitDotChars rest
  | c :: rest =>
    match jsSplitDotChars rest with
    | h :: t => (c :: h) :: t
    | [] => [[c]]

/-- JS `path.split('.')`. -/
def jsSplitDot (path : String) : List String :=
  (jsSplitDotChars path.data).map List.asString

/-- JS whitespace for `trim` (the ASCII whitespace of modelled inputs). -/
def isJsSpace (c : Char) : Bool :=
  c = ' ' ∨ c = '\t' ∨ c = '\n' ∨ c = '\r' ∨ c.toNat = 0x0b ∨ c.toNat = 0x0c

/-- JS `String.prototype.trim()` on a character list. -/
def trimChars (cs : List Char) : List Char :=
  ((cs.dropWhile isJsSpace).reverse.dropWhile isJsSpace).reverse

/-- Parses a decimal numeral (for the query engine's coercion of a
numeric route string to the id column). -/
def decDigits? : List Char → Option Nat
  | [] => none
  | cs => cs.foldl (fun acc c =>
      acc.bind (fun n => if '0' ≤ c ∧ c ≤ '9' then some (n * 10 + (c.toNat - '0'.toNat)) else none))
      (some 0)

/-- One step of the `reduce` in `getByPath` (profileHelpers.js line 19):
`(o, k) => (o && o[k] != null ? o[k] : undefined)`.  The accumulator is
`Option JVal` (`none` = `undefined`); the loose `!= null` test excludes
both `null` and `undefined`. -/
def getByPathStep (o : Option JVal) (k : String) : Option JVal :=
  match o with
  | none => none
  | some ov =>
    if ov.truthy then
      match ov.getField k with
      | some f => if f = JVal.null then none else some f
      | none => none
    else none

/-- `getByPath(obj, path)` from profileHelpers.js: dotted-path traversal
short-circuiting to `undefined` at the first nullish segment. -/
def getByPath (obj : JVal) (path : String) : Option JVal :=
  (jsSplitDot path).foldl getByPathStep (some obj)

/-- `deleteByPath(obj, path)` from makeProfileFieldController.js lines
19-24, as a pure rebuild: walks to the parent of the last path segment
with the same `o && o[k] != null` guard, then deletes the key if the
parent is truthy and has it as an own property.  (The JS mutates a
possibly shared nested object in place; every call site in the repository
uses the flat default path `"profile"`, where the pure rebuild is exact.) -/
def deleteByPathGo : JVal → List String → JVal
  | v, [] => v
  | v, [last] =>
    match v with
    | .obj fs =>
      if (fs.lookup last).isSome then .obj (fs.filter (fun kv => kv.1 ≠ last)) else .obj fs
    | v => v
  | v, k :: rest =>
    match v with
    | .obj fs =>
      match fs.lookup k with
      | some c =>
        if c = JVal.null then .obj fs
        else .obj (fs.map (fun kv => if kv.1 = k then (k, deleteByPathGo c rest) else kv))
      | none => .obj fs
    | v => v

/-- `deleteByPath` entry point (splits the dotted path). -/
def deleteByPath (obj : JVal) (path : String) : JVal :=
  deleteByPathGo obj (jsSplitDot path)

/-- `extractOwnerId(entity, ownerField)` from profileHelpers.js lines
29-49, exactly as written:
* `rel = getByPath(entity, ownerField)`; falsy `rel` gives `undefined`;
* if `ownerField === 'user' || !ownerField.includes('.')` the function
  returns `rel.id` when `rel` is an object and `rel` itself otherwise
  (note: every dot-free field, including the factory default
  `"profile"`, takes this branch);
* otherwise (dotted field) it reads a `user` property off `rel` and
  unwraps its `id`.  (In the dotted branch, `typeof null === 'object'`
  holds in JS, and reading `.id` off `null` would throw; the embedding
  returns `undefined` there — no repository call site passes a dotted
  field, so that path is never exercised.) -/
def extractOwnerId (entity : JVal) (ownerField : String) : Option JVal :=
  match getByPath entity ownerField with
  | none => none
  | some rel =>
    if ¬ rel.truthy then none
    else if ownerField = "user" ∨ ¬ (ownerField.data.contains '.') then
      if rel.isObjectType then rel.getField "id" else some rel
    else
      let profileUser := if rel.isObjectType then rel.getField "user" else none
      match profileUser with
      | none => none
      | some u => if u.isObjectType then u.getField "id" else some u

/-- Hex digit value, for percent-decoding. -/
def hexVal (c : Char) : Option Nat :=
  if '0' ≤ c ∧ c ≤ '9' then some (c.toNat - '0'.toNat)
  else if 'a' ≤ c ∧ c ≤ 'f' then some (c.toNat - 'a'.toNat + 10)
  else if 'A' ≤ c ∧ c ≤ 'F' then some (c.toNat - 'A'.toNat + 10)
  else none

/-- Percent-decoding for `decodeURIComponent`; `none` models a thrown
`URIError` on malformed percent-encoding.  (Bytes are decoded
individually; multi-byte UTF-8 sequences, which no modelled input
contains, would differ from JS.) -/
def percentDecode : List Char → Option (List Char)
  | [] => some []
  | '%' :: a :: b :: rest =>
    match hexVal a, hexVal b with
    | some ha, some hb => (percentDecode rest).map (fun r => Char.ofNat (16 * ha + hb) :: r)
    | _, _ => none
  | '%' :: _ => none
  | c :: rest => (percentDecode rest).map (fun r => c :: r)

/-- True when a character list contains a JS regex line terminator,
which `.` does not match (`\n`, `\r`, U+2028, U+2029). -/
def hasLineTerminator (cs : List Char) : Bool :=
  cs.any (fun c => c = '\n' ∨ c = '\r' ∨ c.toNat = 0x2028 ∨ c.toNat = 0x2029)

/-- `parseEmailParam(id, paramKey)` from profileHelpers.js lines 59-69:
matches `^<key>=(.+)$` case-insensitively (so the remainder must be
non-empty and contain no line terminator), percent-decodes
(`decodeURIComponent`) and trims the captured group, degrading to the
raw trimmed capture if decoding throws.  `none` input models a
non-string / missing id. -/
def parseEmailParam (id : Option String) (paramKey : String) : Option String :=
  match id with
  | none => none
  | some s =>
    if s.data = [] then none
    else
      let plen := paramKey.data.length + 1
      let pre := (s.data.take plen).map jsCharLower
      let rest := s.data.drop plen
      if pre = (paramKey.data.map jsCharLower) ++ ['='] ∧ rest ≠ [] ∧ ¬ hasLineTerminator rest then
        match percentDecode rest with
        | some d => some (trimChars d).asString
        | none => some (trimChars rest).asString
      else none

/-! ### Auth helpers (authHelpers.js) -/

/-- A sanitized query: its `filters` object plus the remaining query keys
(sort, pagination, populate, ...), which the modelled code spreads through
unchanged. -/
structure Query where
  filters : List (String × JVal)
  rest : List (String × JVal)
deriving DecidableEq, Repr

/-- `ctx.state`. -/
structure CtxState where
  agentId : Option JVal
  user : Option JVal
deriving DecidableEq, Repr

/-- The Koa request context, restricted to what the modelled controllers
read.  `bodyData` is `ctx.request.body.data` (`none` = absent). -/
structure Ctx where
  paramsId : Option String
  state : Option CtxState
  user : Option JVal
  query : Query
  bodyData : Option JVal
deriving DecidableEq, Repr

/-- Result of `ensureAgentId`: the value the helper returns, plus whether
`ctx.unauthorized` was invoked on the way.  The helper RETURNS the result
of `ctx.unauthorized(...)` rather than throwing, so callers keep
executing with that value. -/
structure AgentRes where
  val : JVal
  unauthorized : Bool
deriving DecidableEq, Repr

/-- Model of the value `ctx.unauthorized('Unauthorized')` evaluates to:
the context object itself (koa-respond style chainable response helper) —
an object, truthy, and never equal to any user id. -/
def ctxSentinel : JVal := .obj [("koaCtx", .bool true)]

/-- JS `a || b` over possibly-undefined values. -/
def jsOr (a b : Option JVal) : Option JVal :=
  match a with
  | some v => if v.truthy then some v else b
  | none => b

/-- `ensureAgentId(ctx)` from authHelpers.js lines 16-21:
`ctx.state?.agentId` if truthy, else `(ctx.state?.user || ctx.user).id`
if that is truthy, else the value of `ctx.unauthorized('Unauthorized')`
(the helper returns it; it does not throw). -/
def ensureAgentId (ctx : Ctx) : AgentRes :=
  match ctx.state.bind (·.agentId) with
  | some a =>
    if a.truthy then ⟨a, false⟩
    else ensureAgentIdFallback ctx
  | none => ensureAgentIdFallback ctx
where
  /-- The `ctx.state?.user || ctx.user` fallback of `ensureAgentId`. -/
  ensureAgentIdFallback (ctx : Ctx) : AgentRes :=
    match jsOr (ctx.state.bind (·.user)) ctx.user with
    | some u =>
      match u.getField "id" with
      | some idv => if idv.truthy then ⟨idv, false⟩ else ⟨ctxSentinel, true⟩
      | none => ⟨ctxSentinel, true⟩
    | none => ⟨ctxSentinel, true⟩

/-- Builds the nested single-chain object of `maybeOwnerFilter`'s path
loop: for parts `[p0, ..., pn]`, `{p0: {p1: ... {pn: inner}}}`. -/
def nestPath (parts : List String) (inner : JVal) : List (String × JVal) :=
  match parts with
  | [] => []
  | [p] => [(p, inner)]
  | p :: rest => [(p, .obj (nestPath rest inner))]

/-- JS object spread `{...a, ...b}` on association lists: keys of `a`
keep their position (with `b`'s value on collision), new keys of `b` are
appended in order. -/
def spreadMerge (a b : List (String × JVal)) : List (String × JVal) :=
  a.map (fun kv =>
    match b.lookup kv.1 with
    | some w => (kv.1, w)
    | none => kv)
  ++ b.filter (fun kv => (a.lookup kv.1).isNone)

/-- `maybeOwnerFilter(sanitizedQuery, agentId, ownerField)` from
authHelpers.js lines 34-52: merges `{[ownerField]: {id: agentId}}`
(nested along the dotted path) over the caller's filters by spread. -/
def maybeOwnerFilter (sanitizedQuery : Query) (agentId : JVal) (ownerField : String) : Query :=
  let current := sanitizedQuery.filters
  let ownerFilter := nestPath (jsSplitDot ownerField) (.obj [("id", agentId)])
  { sanitizedQuery with filters := spreadMerge current ownerFilter }

/-! ### Backing store

The document store behind `strapi.entityService` / `strapi.service` /
`strapi.documents`, normalized: users, profiles, and the records of the
one entity kind a given controller instance manages ("items": person,
identity-document or emergency-contact records).  Relations are stored by
id and resolved on populate.  The owner relation field on items is named
`"profile"`, as in every content type of this repository. -/

/-- A `plugin::users-permissions.user` record. -/
structure UserRec where
  id : Nat
  email : String
deriving DecidableEq, Repr

/-- An `api::profile.profile` record; `userId` is its `user` relation. -/
structure ProfileRec where
  id : Nat
  userId : Option Nat
deriving DecidableEq, Repr

/-- A record of the controller's target kind; `profileId` is its
`profile` (owner) relation and `fields` its remaining attributes.
`documentId` is the Documents-API reference (truthy when non-zero). -/
structure ItemRec where
  id : Nat
  documentId : Nat
  profileId : Option Nat
  fields : List (String × JVal)
deriving DecidableEq, Repr

/-- The backing store; `nextId` numbers created records. -/
structure Store where
  users : List UserRec
  profiles : List ProfileRec
  items : List ItemRec
  nextId : Nat
deriving DecidableEq, Repr

/-- Does the route/id value address the record with numeric id `rid`?
(The query engine coerces a numeric route string to the id column.) -/
def idMatches (idv : JVal) (rid : Nat) : Bool :=
  match idv with
  | .num n => n = rid
  | .str s => decDigits? s.data = some rid
  | _ => false

/-- `entityService.findOne(UID, id, ...)` on the target kind. -/
def findItem (s : Store) (idv : JVal) : Option ItemRec :=
  s.items.find? (fun r => idMatches idv r.id)

/-- `findOne` on profiles by id. -/
def findProfileRec (s : Store) (pid : Nat) : Option ProfileRec :=
  s.profiles.find? (fun p => p.id = pid)

/-- `findOne(USERS_UID, id)`. -/
def findUserRec (s : Store) (idv : JVal) : Option UserRec :=
  s.users.find? (fun u => idMatches idv u.id)

/-- `findMany(USERS_UID, {filters: {email}, limit: 1})`. -/
def findUserByEmail (s : Store) (email : String) : Option UserRec :=
  s.users.find? (fun u => u.email = email)

/-- The user's populated `profile` relation: the profile whose `user`
relation points at the user (the inverse of the one-to-one). -/
def profileOfUser (s : Store) (uid : Nat) : Option ProfileRec :=
  s.profiles.find? (fun p => p.userId = some uid)

/-- A user record as a JS object. -/
def userJVal (u : UserRec) : JVal :=
  .obj [("id", .num u.id), ("email", .str u.email)]

/-- A profile populated one level deeper with its `user` relation, as
produced by `populate: {[ownerField]: {populate: {user: true}}}`.
An unset or dangling relation populates to `null`. -/
def populatedProfileJVal (s : Store) : Option Nat → JVal
  | none => .null
  | some pid =>
    match findProfileRec s pid with
    | none => .null
    | some p =>
      .obj [("id", .num p.id),
            ("user", match p.userId.bind (fun uid => s.users.find? (fun u => u.id = uid)) with
                     | none => .null
                     | some u => userJVal u)]

/-- An item without populated relations, as returned by list queries and
write operations that do not populate. -/
def itemBaseJVal (r : ItemRec) : JVal :=
  .obj ([("id", .num r.id), ("documentId", .num r.documentId)] ++ r.fields)

/-- An item with its owner relation populated two levels deep
(`populate: {[ownerField]: {populate: {user: true}}}`). -/
def populatedItemJVal (s : Store) (r : ItemRec) (ownerField : String) : JVal :=
  .obj ([("id", .num r.id), ("documentId", .num r.documentId)] ++ r.fields
        ++ [(ownerField, populatedProfileJVal s r.profileId)])

/-- Interprets a relation value from a write payload (`profile: 7`
connects, `profile: null` disconnects; ids in the modelled scenarios are
non-negative). -/
def relIdOfJVal : JVal → Option Nat
  | .num n => some n.toNat
  | _ => none

/-- The field entries of a payload value (non-objects carry none). -/
def dataEntries : JVal → List (String × JVal)
  | .obj fs => fs
  | _ => []

/-- Assignment of one payload field to a stored item: the key named
`"profile"` (the owner relation of every modelled content type) sets the
relation, any other key sets a plain attribute. -/
def applyDataField (r : ItemRec) (k : String) (v : JVal) : ItemRec :=
  if k = "profile" then
    match v with
    | .num n => { r with profileId := some n.toNat }
    | .null => { r with profileId := none }
    | _ => r
  else { r with fields := setField r.fields k v }
where
  /-- Sets (replaces or appends) one attribute. -/
  setField (fs : List (String × JVal)) (k : String) (v : JVal) : List (String × JVal) :=
    if (fs.lookup k).isSome then
      fs.map (fun kv => if kv.1 = k then (k, v) else kv)
    else fs ++ [(k, v)]

/-- `update({data})`: partial merge of the payload into the record
(fields not in the payload are untouched). -/
def applyData (r : ItemRec) (data : List (String × JVal)) : ItemRec :=
  data.foldl (fun r kv => applyDataField r kv.1 kv.2) r

/-- `strapi.documents(UID).update({documentId, data})`; returns the
updated record (the repository's records are unique per documentId). -/
def storeUpdateByDocId (s : Store) (docId : Nat) (data : List (String × JVal)) :
    Store × Option ItemRec :=
  let items := s.items.map (fun r => if r.documentId = docId then applyData r data else r)
  ({ s with items := items }, items.find? (fun r => r.documentId = docId))

/-- `strapi.service(UID).update(id, {data})` (legacy fallback). -/
def storeUpdateById (s : Store) (rid : Nat) (data : List (String × JVal)) :
    Store × Option ItemRec :=
  let items := s.items.map (fun r => if r.id = rid then applyData r data else r)
  ({ s with items := items }, items.find? (fun r => r.id = rid))

/-- `strapi.documents(UID).create({data, status: 'published'})` on the
target kind: assigns a fresh id/documentId, connects the `"profile"`
relation from the payload, stores the remaining attributes. -/
def storeCreateItem (s : Store) (data : List (String × JVal)) : Store × ItemRec :=
  let r : ItemRec :=
    { id := s.nextId
      documentId := s.nextId
      profileId := (data.lookup "profile").bind relIdOfJVal
      fields := data.filter (fun kv => kv.1 ≠ "profile") }
  ({ s with items := s.items ++ [r], nextId := s.nextId + 1 }, r)

/-- `strapi.documents(PROFILES_UID).create({data: {user: ...}})`. -/
def storeCreateProfile (s : Store) (userRel : Option Nat) : Store × ProfileRec :=
  let p : ProfileRec := { id := s.nextId, userId := userRel }
  ({ s with profiles := s.profiles ++ [p], nextId := s.nextId + 1 }, p)

/-- One filter entry as the query engine evaluates it on an item: the
owner-relation key `"profile"` with `{id: n}` matches the item's profile
relation; any other key matches an attribute by equality.  (Filter shapes
beyond those produced by the modelled controllers match nothing.) -/
def matchesFilterEntry (r : ItemRec) (k : String) (v : JVal) : Bool :=
  if k = "profile" then
    match v with
    | .obj [("id", .num n)] => r.profileId = some n.toNat ∧ 0 ≤ n
    | _ => false
  else
    match r.fields.lookup k with
    | some w => w = v
    | none => false

/-- `strapi.service(UID).find({filters, ...})`: the items matching every
filter entry, in store order. -/
def storeFindItems (s : Store) (filters : List (String × JVal)) : List ItemRec :=
  s.items.filter (fun r => filters.all (fun kv => matchesFilterEntry r kv.1 kv.2))

/-! ### Profile provisioner (profileHelpers.js lines 81-123) -/

/-- `ensureProfile` resolution core: looks the user up with its `profile`
relation populated; returns the existing profile, otherwise creates one
whose `user` relation is `user.id`.  `Except.error` models the thrown
`Error` for a missing/falsy `user?.id`.  (Populating a one-to-one always
yields an object or `null`, so the source's "profile is just an ID"
fallback, lines 97-101 of profileHelpers.js, is unreachable here.  When
the user id itself resolves to no stored user, `populatedUser?.profile`
is `undefined` and the create branch runs, as in the source.) -/
def ensureProfileCore (s : Store) (user : JVal) : Except String (ProfileRec × Store) :=
  match user.getField "id" with
  | none => .error "ensureProfile: user with id is required"
  | some iv =>
    if ¬ iv.truthy then .error "ensureProfile: user with id is required"
    else
      match findUserRec s iv with
      | some u =>
        match profileOfUser s u.id with
        | some p => .ok (p, s)
        | none =>
          let (s', p) := storeCreateProfile s (relIdOfJVal iv)
          .ok (p, s')
      | none =>
        let (s', p) := storeCreateProfile s (relIdOfJVal iv)
        .ok (p, s')

/-- `ensureProfile(strapi, user, returnIdOnly)`: the profile object, or
just its id when `returnIdOnly`. -/
def ensureProfile (s : Store) (user : JVal) (returnIdOnly : Bool) :
    Except String (JVal × Store) :=
  (ensureProfileCore s user).map fun ps =>
    (if returnIdOnly then .num ps.1.id else .obj [("id", .num ps.1.id)], ps.2)

/-- `ensureProfileId(strapi, user)` = `ensureProfile(strapi, user, true)`. -/
def ensureProfileId (s : Store) (user : JVal) : Except String (JVal × Store) :=
  ensureProfile s user true

/-! ### The secured field controller (makeProfileFieldController.js)

`validateQuery` / `sanitizeQuery` / `validateInput` / `sanitizeInput` /
`sanitizeOutput` / `transformResponse` are external collaborators (spec
§1, §6) and are modelled as the identity. -/

/-- Factory configuration (`UID` selects the store's item kind and is
implicit; `typeField` only feeds a populate option and has no modelled
effect). -/
structure Cfg where
  ownerField : String := "profile"
  ownerHasMany : Bool := false
deriving DecidableEq, Repr

/-- A controller response. -/
inductive Response where
  | data (v : JVal)
  | dataList (vs : List JVal)
  | badRequest (msg : String)
  | forbidden (msg : String)
  | notFound (msg : String)
  | serverError (msg : String)
  | unauthorized (msg : String)
deriving DecidableEq, Repr

/-- Outcome of one controller action: the response, the store after the
request, how many backing-store queries/writes were issued, whether
`ctx.unauthorized` fired along the way, and (instrumentation) the profile
id resolved via `ensureProfileId` during the request, if any. -/
structure CtrlResult where
  resp : Response
  store : Store
  calls : Nat
  unauthorizedSignalled : Bool
  resolvedProfile : Option Nat
deriving DecidableEq, Repr

/-- Renders an id value into an error-message string (JS template
interpolation of the id). -/
def idString : JVal → String
  | .num n => toString n
  | .str s => s
  | _ => ""

/-- `find(ctx)` (makeProfileFieldController.js lines 41-54): resolves the
agent id (execution continues even when `ctx.unauthorized` fired, since
`ensureAgentId` returns rather than throws), pushes the owner filter, and
runs the list query. -/
def findCtrl (cfg : Cfg) (s : Store) (ctx : Ctx) : CtrlResult :=
  let sanitizedQuery := ctx.query
  let ag := ensureAgentId ctx
  let userFilteredQuery := maybeOwnerFilter sanitizedQuery ag.val cfg.ownerField
  let results := storeFindItems s userFilteredQuery.filters
  { resp := .dataList (results.map itemBaseJVal)
    store := s
    calls := 1
    unauthorizedSignalled := ag.unauthorized
    resolvedProfile := none }

/-- `findOne(ctx)` (makeProfileFieldController.js lines 57-133). -/
def findOneCtrl (cfg : Cfg) (s : Store) (ctx : Ctx) : CtrlResult :=
  if cfg.ownerHasMany then
    { resp := .badRequest "Invalid request.", store := s, calls := 0
      unauthorizedSignalled := false, resolvedProfile := none }
  else
    let ag := ensureAgentId ctx
    match parseEmailParam ctx.paramsId "user" with
    | none =>
      -- Branch A: direct id, fetched with the owner chain populated
      match ctx.paramsId.bind (fun pid => findItem s (.str pid)) with
      | none =>
        { resp := .data .null, store := s, calls := 1
          unauthorizedSignalled := ag.unauthorized, resolvedProfile := none }
      | some r =>
        let existing := populatedItemJVal s r cfg.ownerField
        let ownerId := extractOwnerId existing cfg.ownerField
        if ¬ jsEqOpt ag.val ownerId then
          { resp := .forbidden "You do not have permission to access this resource."
            store := s, calls := 1
            unauthorizedSignalled := ag.unauthorized, resolvedProfile := none }
        else
          { resp := .data existing, store := s, calls := 1
            unauthorizedSignalled := ag.unauthorized, resolvedProfile := none }
    | some emailRaw =>
      -- Branch B: id is "user=<email>"
      let email := jsToLower emailRaw
      match findUserByEmail s email with
      | none =>
        { resp := .notFound ("Owner with email \"" ++ email ++ "\" was not found.")
          store := s, calls := 1
          unauthorizedSignalled := ag.unauthorized, resolvedProfile := none }
      | some ownerUser =>
        if ¬ jsEq ag.val (.num ownerUser.id) then
          { resp := .forbidden "You do not have permission to access this resource."
            store := s, calls := 1
            unauthorizedSignalled := ag.unauthorized, resolvedProfile := none }
        else
          match ensureProfileCore s (userJVal ownerUser) with
          | .error e =>
            { resp := .serverError e, store := s, calls := 2
              unauthorizedSignalled := ag.unauthorized, resolvedProfile := none }
          | .ok (p, s1) =>
            -- find the single record for this profile (filters replaced, limit 1)
            let results := (storeFindItems s1 [(cfg.ownerField, .obj [("id", .num p.id)])]).take 1
            match results with
            | [] =>
              { resp := .data .null, store := s1, calls := 3
                unauthorizedSignalled := ag.unauthorized, resolvedProfile := some p.id }
            | r :: _ =>
              { resp := .data (itemBaseJVal r), store := s1, calls := 3
                unauthorizedSignalled := ag.unauthorized, resolvedProfile := some p.id }

/-- `item?.id || null` (makeProfileFieldController.js line 152): the
pre-extracted identifier of a bulk array item; any falsy id (absent,
`null`, `0`, `false`, `""`) collapses to `null` (`none`). -/
def jsIdOrNull (item : JVal) : Option JVal :=
  match item.getField "id" with
  | some v => if v.truthy then some v else none
  | none => none

/-- `const {id, ...rest} = item` applied when `item` is an object with an
`id` own-property (lines 154-160): removes the key, otherwise leaves the
item unchanged. -/
def stripIdField (item : JVal) : JVal :=
  match item with
  | .obj fs => if (fs.lookup "id").isSome then .obj (fs.filter (fun kv => kv.1 ≠ "id")) else .obj fs
  | v => v

/-- The id pre-extraction of `update` (lines 150-152): for a collection
payload array, each element's `item?.id || null`; empty otherwise. -/
def extractBulkIds (cfg : Cfg) (bd : JVal) : List (Option JVal) :=
  match cfg.ownerHasMany, bd with
  | true, .arr l => l.map jsIdOrNull
  | _, _ => []

/-- The id strip of `update` (lines 153-160): for a collection payload
array, each element loses its `id` own-property; unchanged otherwise. -/
def stripBulkIds (cfg : Cfg) (bd : JVal) : JVal :=
  match cfg.ownerHasMany, bd with
  | true, .arr l => .arr (l.map stripIdField)
  | _, v => v

/-- The owner-strip step (lines 167-172): for a collection payload array
each element loses its owner field, otherwise the payload object does. -/
def stripOwnerPayload (cfg : Cfg) (sanitizedInputData : JVal) : JVal :=
  match cfg.ownerHasMany, sanitizedInputData with
  | true, .arr l => .arr (l.map (fun it => deleteByPath it cfg.ownerField))
  | _, v => deleteByPath v cfg.ownerField

/-- The `ownerHasMany` bulk loop of `update` (lines 246-296), over the
sanitized items paired with their pre-extracted ids: an item with a
(truthy) id is fetched, ownership-checked against the resolved owner
user, then updated; an id-less item is created with the owner relation
set to the resolved profile id.  An existence or ownership failure stops
the loop at once — mutations already applied stay in the store that the
error carries.  The `Nat` counts backing-store operations. -/
def bulkLoop (cfg : Cfg) (ownerUserId : Nat) (profileIdJ : JVal) (s : Store) :
    List (JVal × Option JVal) → Except (Response × Store × Nat) (List JVal × Store × Nat)
  | [] => .ok ([], s, 0)
  | (item, itemId) :: rest =>
    match itemId with
    | some idv =>
      match findItem s idv with
      | none => .error (.notFound ("Record with id " ++ idString idv ++ " not found"), s, 1)
      | some ex =>
        let itemOwnerId := extractOwnerId (populatedItemJVal s ex cfg.ownerField) cfg.ownerField
        if ¬ jsEqOpt (.num ownerUserId) itemOwnerId then
          .error (.forbidden ("You do not own the record with id " ++ idString idv), s, 1)
        else
          let us := if ex.documentId ≠ 0
            then storeUpdateByDocId s ex.documentId (dataEntries item)
            else storeUpdateById s ex.id (dataEntries item)
          match bulkLoop cfg ownerUserId profileIdJ us.1 rest with
          | .ok (l, s2, n) =>
            .ok ((match us.2 with | some u => itemBaseJVal u | none => .null) :: l, s2, n + 2)
          | .error (r, s2, n) => .error (r, s2, n + 2)
    | none =>
      let cs := storeCreateItem s (spreadMerge (dataEntries item) [(cfg.ownerField, profileIdJ)])
      match bulkLoop cfg ownerUserId profileIdJ cs.1 rest with
      | .ok (l, s2, n) => .ok (itemBaseJVal cs.2 :: l, s2, n + 1)
      | .error (r, s2, n) => .error (r, s2, n + 1)

/-- `update(ctx)` (makeProfileFieldController.js lines 136-343). -/
def updateCtrl (cfg : Cfg) (s : Store) (ctx : Ctx) : CtrlResult :=
  let ag := ensureAgentId ctx
  match ctx.bodyData with
  | none =>
    { resp := .badRequest "Missing \"data\" payload in the request body"
      store := s, calls := 0, unauthorizedSignalled := ag.unauthorized
      resolvedProfile := none }
  | some bd =>
    if ¬ bd.isObject then
      { resp := .badRequest "Missing \"data\" payload in the request body"
        store := s, calls := 0, unauthorizedSignalled := ag.unauthorized
        resolvedProfile := none }
    else
      -- pre-extract ids of a collection array and strip them (lines 150-161)
      let extractedIds : List (Option JVal) := extractBulkIds cfg bd
      let bodyData1 : JVal := stripBulkIds cfg bd
      -- validateInput / sanitizeInput are identity collaborators
      let sanitizedInputData := bodyData1
      let stripped := stripOwnerPayload cfg sanitizedInputData
      match parseEmailParam ctx.paramsId "user" with
      | none =>
        -- Branch A: direct id
        match ctx.paramsId.bind (fun pid => findItem s (.str pid)) with
        | none =>
          { resp := .data .null, store := s, calls := 1
            unauthorizedSignalled := ag.unauthorized, resolvedProfile := none }
        | some r =>
          let existing := populatedItemJVal s r cfg.ownerField
          let ownerId := extractOwnerId existing cfg.ownerField
          if ¬ jsEqOpt ag.val ownerId then
            { resp := .forbidden "You do not have permission to modify this resource."
              store := s, calls := 1
              unauthorizedSignalled := ag.unauthorized, resolvedProfile := none }
          else
            let us := if r.documentId ≠ 0
              then storeUpdateByDocId s r.documentId (dataEntries stripped)
              else storeUpdateById s r.id (dataEntries stripped)
            { resp := .data (match us.2 with | some u => itemBaseJVal u | none => .null)
              store := us.1, calls := 2
              unauthorizedSignalled := ag.unauthorized, resolvedProfile := none }
      | some emailRaw =>
        -- Branch B: id is "user=<email>"
        let email := jsToLower emailRaw
        match findUserByEmail s email with
        | none =>
          { resp := .notFound ("Owner with email \"" ++ email ++ "\" was not found.")
            store := s, calls := 1
            unauthorizedSignalled := ag.unauthorized, resolvedProfile := none }
        | some ownerUser =>
          if ¬ jsEq ag.val (.num ownerUser.id) then
            { resp := .forbidden "You do not have permission to modify this resource."
              store := s, calls := 1
              unauthorizedSignalled := ag.unauthorized, resolvedProfile := none }
          else
            match ensureProfileCore s (userJVal ownerUser) with
            | .error e =>
              { resp := .serverError e, store := s, calls := 2
                unauthorizedSignalled := ag.unauthorized, resolvedProfile := none }
            | .ok (p, s1) =>
              if cfg.ownerHasMany then
                match stripped with
                | .arr items =>
                  let idsPadded := extractedIds
                    ++ List.replicate (items.length - extractedIds.length) none
                  match bulkLoop cfg ownerUser.id (.num p.id) s1 (items.zip idsPadded) with
                  | .ok (l, s2, n) =>
                    { resp := .dataList l, store := s2, calls := 3 + n
                      unauthorizedSignalled := ag.unauthorized, resolvedProfile := some p.id }
                  | .error (r, s2, n) =>
                    { resp := r, store := s2, calls := 3 + n
                      unauthorizedSignalled := ag.unauthorized, resolvedProfile := some p.id }
                | _ =>
                  { resp := .badRequest "Data must be an array of updates"
                    store := s1, calls := 3
                    unauthorizedSignalled := ag.unauthorized, resolvedProfile := some p.id }
              else
                -- singleton: find (or create) the one record for this profile
                let results := (storeFindItems s1 [(cfg.ownerField, .obj [("id", .num p.id)])]).take 1
                let cs :=
                  match results with
                  | [] =>
                    let c := storeCreateItem s1 [(cfg.ownerField, .num p.id)]
                    (c.1, c.2.documentId)
                  | r :: _ => (s1, r.documentId)
                if cs.2 = 0 then
                  -- `if (!targetDocumentId) ctx.throw(500, ...)` — after this
                  -- throw the remaining alternative update paths (lines
                  -- 332-339) cannot run, so only the documents-API update
                  -- survives below.
                  { resp := .serverError "Unable to resolve target document for the specified owner."
                    store := cs.1, calls := 4
                    unauthorizedSignalled := ag.unauthorized, resolvedProfile := some p.id }
                else
                  let us := storeUpdateByDocId cs.1 cs.2 (dataEntries stripped)
                  { resp := .data (match us.2 with | some u => itemBaseJVal u | none => .null)
                    store := us.1, calls := 5
                    unauthorizedSignalled := ag.unauthorized, resolvedProfile := some p.id }

/-! ### The delete operation

Modelled from the spec: the `delete` action for collection kinds is
documented in this repository (src/api/README.md, "DELETE
/api/emergency-contacts/:id") but its implementation file is not among
the provided sources — only its documentation and the controller factory
it would extend are.  The definitions below follow the spec's §4.5
"delete(request)" wording (direct-id pattern, and the two-phase
verify-then-commit indirection-bulk pattern). -/

/-- Modelled from the spec: `owner_principal(E) = Profile.principal where
Profile = E.owner_reference` (spec §3's ownership-chain invariant). -/
def specOwnerPrincipal (s : Store) (r : ItemRec) : Option Nat :=
  (r.profileId.bind (findProfileRec s)).bind (fun p => p.userId)

/-- Modelled from the spec: does the requesting agent's id equal the
record's owner principal? -/
def specOwnerMatches (s : Store) (r : ItemRec) (agent : JVal) : Bool :=
  match specOwnerPrincipal s r with
  | some uid => jsEq agent (.num uid)
  | none => false

/-- Modelled from the spec: a bulk-delete body entry is "either a bare
value or an `{id}` object" (spec §4.5); this extracts its target id. -/
def targetIdOf : JVal → Option JVal
  | .obj fs => fs.lookup "id"
  | v => some v

/-- Modelled from the spec: the verification phase of the bulk delete —
"fetch and check ownership for every id before any deletion"; the first
id that fails existence or ownership yields the aborting response. -/
def verifyTargets (s : Store) (ownerUid : Nat) : List JVal → Option Response
  | [] => none
  | idv :: rest =>
    match findItem s idv with
    | none => some (.notFound ("Record with id " ++ idString idv ++ " not found."))
    | some ex =>
      if ¬ (specOwnerPrincipal s ex = some ownerUid) then
        some (.forbidden ("You do not own the record with id " ++ idString idv))
      else verifyTargets s ownerUid rest

/-- Modelled from the spec: `delete(request)` (spec §4.5), offered only
for collection kinds.  Direct-id pattern: fetch, 404 if missing, verify
the caller owns it through the ownership chain, delete, return the
deleted record.  Indirection-bulk pattern: resolve principal/profile and
verify the caller matches, extract the target ids, run the verification
phase over every id, and only if all pass delete every targeted item and
return the full set of deleted records. -/
def deleteCtrlSpec (cfg : Cfg) (s : Store) (ctx : Ctx) : CtrlResult :=
  if ¬ cfg.ownerHasMany then
    { resp := .badRequest "Invalid request.", store := s, calls := 0
      unauthorizedSignalled := false, resolvedProfile := none }
  else
    let ag := ensureAgentId ctx
    if ag.unauthorized then
      -- spec §4.1/§7: fails closed with an Unauthenticated condition
      { resp := .unauthorized "Unauthorized", store := s, calls := 0
        unauthorizedSignalled := true, resolvedProfile := none }
    else
      match parseEmailParam ctx.paramsId "user" with
      | none =>
        match ctx.paramsId.bind (fun pid => findItem s (.str pid)) with
        | none =>
          { resp := .notFound "Record not found.", store := s, calls := 1
            unauthorizedSignalled := false, resolvedProfile := none }
        | some r =>
          if ¬ specOwnerMatches s r ag.val then
            { resp := .forbidden "You do not have permission to delete this resource."
              store := s, calls := 1, unauthorizedSignalled := false
              resolvedProfile := none }
          else
            { resp := .data (itemBaseJVal r)
              store := { s with items := s.items.filter (fun x => x.id ≠ r.id) }
              calls := 2, unauthorizedSignalled := false, resolvedProfile := none }
      | some emailRaw =>
        let email := jsToLower emailRaw
        match findUserByEmail s email with
        | none =>
          { resp := .notFound ("Owner with email \"" ++ email ++ "\" was not found.")
            store := s, calls := 1, unauthorizedSignalled := false
            resolvedProfile := none }
        | some ownerUser =>
          if ¬ jsEq ag.val (.num ownerUser.id) then
            { resp := .forbidden "You do not have permission to delete resources for this user."
              store := s, calls := 1, unauthorizedSignalled := false
              resolvedProfile := none }
          else
            match ensureProfileCore s (userJVal ownerUser) with
            | .error e =>
              { resp := .serverError e, store := s, calls := 2
                unauthorizedSignalled := false, resolvedProfile := none }
            | .ok (p, s1) =>
              match ctx.bodyData with
              | some (.arr entries) =>
                let ids := entries.filterMap targetIdOf
                if ids.isEmpty then
                  { resp := .badRequest "No valid IDs found in request body data array."
                    store := s1, calls := 3, unauthorizedSignalled := false
                    resolvedProfile := some p.id }
                else
                  match verifyTargets s1 ownerUser.id ids with
                  | some failResp =>
                    -- verification failed: abort with zero deletions
                    { resp := failResp, store := s1, calls := 3 + ids.length
                      unauthorizedSignalled := false, resolvedProfile := some p.id }
                  | none =>
                    -- deletion phase: all targets verified
                    let deleted := ids.filterMap (findItem s1)
                    let remaining := s1.items.filter (fun r => ¬ ids.any (fun idv => idMatches idv r.id))
                    { resp := .dataList (deleted.map itemBaseJVal)
                      store := { s1 with items := remaining }
                      calls := 3 + 2 * ids.length
                      unauthorizedSignalled := false, resolvedProfile := some p.id }
              | _ =>
                { resp := .badRequest "Request body must contain a \"data\" array with IDs to delete."
                  store := s1, calls := 3, unauthorizedSignalled := false
                  resolvedProfile := some p.id }

/-! ### Concrete fixtures used by the claim theorems -/

/-- A request context carrying an authenticated agent id, a route id and
an optional body payload, with an empty sanitized query. -/
def mkCtx (aid : Nat) (pid : String) (bd : Option JVal := none) : Ctx :=
  { paramsId := some pid
    state := some { agentId := some (.num aid), user := none }
    user := none
    query := { filters := [], rest := [] }
    bodyData := bd }

/-- A request context with no authentication state at all. -/
def mkCtxNoAuth (pid : String) (bd : Option JVal := none) : Ctx :=
  { paramsId := some pid, state := none, user := none
    query := { filters := [], rest := [] }, bodyData := bd }

/-- Store for the ownership-isolation scenario: principal 7 owns record
301 through profile 42 (`owner_principal(301) = 7`), while a second
principal happens to have user id 42 — equal to the record's profile id. -/
def isoStore : Store :=
  { users := [⟨7, "p1@x.com"⟩, ⟨42, "p2@x.com"⟩]
    profiles := [⟨42, some 7⟩]
    items := [⟨301, 301, some 42, [("firstName", .str "Jane")]⟩]
    nextId := 1000 }

/-- Store for the email-indirection scenario, with the id values of the
repository's own README walkthrough: user 456 owns person 789 via
profile 123. -/
def emailStore : Store :=
  { users := [⟨456, "john.doe@mail.com"⟩]
    profiles := [⟨123, some 456⟩]
    items := [⟨789, 789, some 123, [("firstName", .str "John")]⟩]
    nextId := 1000 }

/-- Store for the bulk-update scenario: caller 1 owns contact 301 via
profile 1 (profile id equal to user id so the code's ownership check
passes for it); contact 999 belongs to principal 2. -/
def bulkStore : Store :=
  { users := [⟨1, "a@b.c"⟩, ⟨2, "z@b.c"⟩]
    profiles := [⟨1, some 1⟩, ⟨2, some 2⟩]
    items := [⟨301, 301, some 1, [("phone", .str "+1")]⟩,
              ⟨999, 999, some 2, [("phone", .str "+2")]⟩]
    nextId := 1000 }

/-- Mixed bulk payload: an update to owned contact 301 followed by an
update to foreign contact 999. -/
def bulkBadBody : JVal :=
  .arr [.obj [("id", .num 301), ("phone", .str "+9")],
        .obj [("id", .num 999), ("phone", .str "x")]]

/-- The collection-kind configuration (emergency contacts). -/
def manyCfg : Cfg := { ownerField := "profile", ownerHasMany := true }

/-! ### C4 — `extractOwnerId` -/

/-- C4: FALSIFIED (code bug).  The claim says that for a populated owner
object carrying a `user` reference, `extractOwnerId` returns the
principal's (user's) identifier, and that for an unpopulated relation
(bare identifier) it returns `undefined`.  The code instead takes its
first branch for EVERY dot-free owner field (the factory default
`"profile"` included, since `'profile'.includes('.')` is false), so on
`{profile: {id: 5, user: {id: 7}}}` it returns the profile id `5`
rather than the principal id `7`, and on the unpopulated `{profile: 5}`
it returns `5` rather than `undefined`.  (The legacy in-factory copy of
this helper in makeSecuredCrudController.js unwraps `profile.user`
correctly, and the helper's own doc comment says it extracts "the owner
(user) ID"; the refactored helper contradicts both.) -/
theorem extractOwnerId_profile_code_bug :
    extractOwnerId
        (.obj [("profile", .obj [("id", .num 5), ("user", .obj [("id", .num 7)])])])
        "profile" = some (.num 5)
    ∧ extractOwnerId (.obj [("profile", .num 5)]) "profile" = some (.num 5)
    ∧ ((5 : Int) = 7 → False) := by
  decide

/-! ### C1 — ownership isolation -/

/-- C1: FALSIFIED (code bug).  `owner_principal(record 301) = 7`
(profile 42 belongs to user 7), yet the request authenticated as
principal 42 — a different principal whose user id merely coincides with
the record's profile id — is granted `findOne` access to record 301
instead of `Forbidden`, the record appears in principal 42's `find`
list, and an `update` by principal 42 is applied instead of `Forbidden`.
Root cause: `extractOwnerId` (see C4) compares the caller's user id
against the record's PROFILE id, and `maybeOwnerFilter` scopes the list
query by `profile.id == agentId` for the same reason. -/
theorem ownershipIsolation_code_bug :
    specOwnerPrincipal isoStore ⟨301, 301, some 42, [("firstName", .str "Jane")]⟩ = some 7
    ∧ (findOneCtrl {} isoStore (mkCtx 42 "301")).resp
        = .data (populatedItemJVal isoStore ⟨301, 301, some 42, [("firstName", .str "Jane")]⟩ "profile")
    ∧ (findCtrl {} isoStore (mkCtx 42 "x")).resp
        = .dataList [itemBaseJVal ⟨301, 301, some 42, [("firstName", .str "Jane")]⟩]
    ∧ (updateCtrl {} isoStore (mkCtx 42 "301" (some (.obj [("firstName", .str "Hacked")])))).store.items
        = [⟨301, 301, some 42, [("firstName", .str "Hacked")]⟩] := by
  decide

/-! ### C5 — email-indirection equivalence -/

/-- C5: FALSIFIED (code bug).  For the record's true owner (principal
456, the README's own walkthrough ids: person 789 owned via profile
123), the email-indirected `findOne` succeeds, but the direct-id
`findOne` for the very same record returns `Forbidden` — because the
direct-id branch compares the caller's user id 456 with the profile id
123 produced by `extractOwnerId` (see C4).  The two access paths are
therefore not equivalent: one succeeds, the other fails. -/
theorem emailIndirectionEquivalence_code_bug :
    (findOneCtrl {} emailStore (mkCtx 456 "user=john.doe@mail.com")).resp
        = .data (.obj [("id", .num 789), ("documentId", .num 789), ("firstName", .str "John")])
    ∧ (findOneCtrl {} emailStore (mkCtx 456 "789")).resp
        = .forbidden "You do not have permission to access this resource." := by
  decide

/-! ### C8 — fails closed on missing principal -/

/-- C8: FALSIFIED (code bug).  `ensureAgentId` RETURNS the result of
`ctx.unauthorized('Unauthorized')` instead of throwing (its own doc
comment says it "throws unauthorized error if not authenticated"), so a
`find` request with no principal continues past the check and executes
the backing-store list query (one backing-store call, producing a result
list) — the claim requires that no backing-store query be performed. -/
theorem find_unauthenticated_code_bug :
    (ensureAgentId (mkCtxNoAuth "x")).unauthorized = true
    ∧ (findCtrl {} isoStore (mkCtxNoAuth "x")).calls = 1
    ∧ (findCtrl {} isoStore (mkCtxNoAuth "x")).resp = .dataList [] := by
  decide

/-! ### C10 — owner scoping of `find` filters -/

/-- Key lookup through the override half of a JS spread. -/
theorem lookup_map_override (a b : List (String × JVal)) (k : String) :
    (a.map (fun kv =>
      match b.lookup kv.1 with
      | some w => (kv.1, w)
      | none => kv)).lookup k
    = match a.lookup k with
      | some v => some ((b.lookup k).getD v)
      | none => none := by
  induction a with
  | nil => simp
  | cons hd tl ih =>
    obtain ⟨k1, v1⟩ := hd
    by_cases hk : k = k1
    · subst hk
      cases hb : b.lookup k <;> simp [List.lookup_cons, hb]
    · have hne : (k == k1) = false := beq_false_of_ne hk
      cases hb1 : b.lookup k1 <;>
        simp [List.lookup_cons, hne, ih, hb1]

/-- Key lookup through the append half of a JS spread (entries whose key
already occurs in `a` are dropped). -/
theorem lookup_filter_keys (a b : List (String × JVal)) (k : String) :
    (b.filter (fun kv => (a.lookup kv.1).isNone)).lookup k
    = if (a.lookup k).isNone then b.lookup k else none := by
  induction b with
  | nil => simp
  | cons hd tl ih =>
    obtain ⟨k1, v1⟩ := hd
    by_cases hk : k = k1
    · subst hk
      cases ha : (a.lookup k).isNone <;>
        simp [List.filter_cons, ha, List.lookup_cons, ih]
    · have hne : (k == k1) = false := beq_false_of_ne hk
      cases ha1 : (a.lookup k1).isNone <;>
        simp [List.filter_cons, ha1, List.lookup_cons, hne, ih]

/-- Key lookup through `spreadMerge` (`{...a, ...b}`): a key of `b`
resolves to `b`'s value, any other key to `a`'s. -/
theorem spreadMerge_lookup (a b : List (String × JVal)) (k : String) :
    (spreadMerge a b).lookup k
    = match a.lookup k with
      | some v => some ((b.lookup k).getD v)
      | none => b.lookup k := by
  unfold spreadMerge
  rw [List.lookup_append, lookup_map_override, lookup_filter_keys]
  cases ha : a.lookup k <;> cases hb : b.lookup k <;> simp [ha, hb]

/-- C10: for every sanitized query and principal id (and any dot-free
owner field, as both configured fields `"profile"` and `"user"` are),
the query produced by `maybeOwnerFilter` has its top-level owner-field
filter equal to exactly `{id: principalId}` — any caller-supplied filter
under that key is overwritten, not merged — while lookups under every
other key, and the non-filter query keys, are unchanged. -/
theorem maybeOwnerFilter_ownerScope (q : Query) (a : JVal) (f : String)
    (hflat : jsSplitDot f = [f]) :
    (maybeOwnerFilter q a f).filters.lookup f = some (.obj [("id", a)])
    ∧ (∀ k, k ≠ f → (maybeOwnerFilter q a f).filters.lookup k = q.filters.lookup k)
    ∧ (maybeOwnerFilter q a f).rest = q.rest := by
  unfold maybeOwnerFilter
  rw [hflat]
  refine ⟨?_, fun k hk => ?_, rfl⟩
  · rw [show nestPath [f] (JVal.obj [("id", a)]) = [(f, .obj [("id", a)])] from rfl,
      spreadMerge_lookup]
    cases hq : q.filters.lookup f <;> simp [List.lookup_cons]
  · rw [show nestPath [f] (JVal.obj [("id", a)]) = [(f, .obj [("id", a)])] from rfl,
      spreadMerge_lookup]
    have hne : (k == f) = false := beq_false_of_ne hk
    cases hq : q.filters.lookup k <;> simp [List.lookup_cons, hne]

/-- Witness for C10 at the configured owner field `"profile"`, a caller
filter that tries to widen the owner scope (`profile.id == 9`), and
principal 42. -/
theorem maybeOwnerFilter_ownerScope_witness :
    jsSplitDot "profile" = ["profile"]
    ∧ (maybeOwnerFilter
          { filters := [("profile", .obj [("id", .num 9)]), ("city", .str "X")]
            rest := [("sort", .str "id")] }
          (.num 42) "profile").filters.lookup "profile"
        = some (.obj [("id", .num 42)]) :=
  ⟨by decide,
   (maybeOwnerFilter_ownerScope
      { filters := [("profile", .obj [("id", .num 9)]), ("city", .str "X")]
        rest := [("sort", .str "id")] }
      (.num 42) "profile" (by decide)).1⟩

/-! ### C7 — idempotent provisioning -/

/-- `ensureProfileCore` resolved against an existing user: returns the
user's existing profile unchanged, or creates the one fresh profile
owned by that user. -/
theorem ensureProfileCore_eq (s : Store) (u : UserRec)
    (hu : findUserRec s (.num u.id) = some u) (hpos : u.id ≠ 0) :
    ensureProfileCore s (userJVal u)
      = match profileOfUser s u.id with
        | some p => .ok (p, s)
        | none => .ok (⟨s.nextId, some u.id⟩,
            { s with profiles := s.profiles ++ [⟨s.nextId, some u.id⟩]
                     nextId := s.nextId + 1 }) := by
  have hid : (userJVal u).getField "id" = some (.num u.id) := rfl
  have htr : (JVal.num u.id).truthy = true := by
    simp [JVal.truthy, hpos]
  unfold ensureProfileCore
  rw [hid]
  simp only [htr, not_true_eq_false, if_false, hu]
  cases hp : profileOfUser s u.id <;>
    simp [hp, storeCreateProfile, relIdOfJVal]

/-- C7: calling the profile-ensure operation twice in sequence for the
same (existing) principal returns the same Profile id both times and the
second call leaves the store untouched; the first call creates a profile
— owned by that principal, in the store's fresh slot — exactly when the
principal had none, and otherwise changes nothing. -/
theorem ensureProfile_idempotent (s : Store) (u : UserRec)
    (hu : findUserRec s (.num u.id) = some u) (hpos : u.id ≠ 0) :
    ∃ pid s1,
      ensureProfileId s (userJVal u) = .ok (.num pid, s1)
      ∧ ensureProfileId s1 (userJVal u) = .ok (.num pid, s1)
      ∧ ((profileOfUser s u.id = none
            ∧ s1.profiles = s.profiles ++ [⟨s.nextId, some u.id⟩]
            ∧ pid = s.nextId)
         ∨ (∃ p, profileOfUser s u.id = some p ∧ s1 = s ∧ pid = p.id)) := by
  cases hp : profileOfUser s u.id with
  | some p =>
    refine ⟨p.id, s, ?_, ?_, Or.inr ⟨p, rfl, rfl, rfl⟩⟩ <;>
      simp [ensureProfileId, ensureProfile, ensureProfileCore_eq s u hu hpos, hp, Except.map]
  | none =>
    set p : ProfileRec := ⟨s.nextId, some u.id⟩ with hpdef
    set s1 : Store :=
      { s with profiles := s.profiles ++ [p], nextId := s.nextId + 1 } with hs1
    have hu1 : findUserRec s1 (.num u.id) = some u := hu
    have hp1 : profileOfUser s1 u.id = some p := by
      have hnone : s.profiles.find? (fun q => q.userId = some u.id) = none := by
        simpa [profileOfUser] using hp
      simp [profileOfUser, hs1, List.find?_append, hnone, hpdef]
    refine ⟨s.nextId, s1, ?_, ?_, Or.inl ⟨rfl, by simp [hs1], rfl⟩⟩
    · simp [ensureProfileId, ensureProfile, ensureProfileCore_eq s u hu hpos, hp, Except.map,
        hs1, hpdef]
    · simp [ensureProfileId, ensureProfile, ensureProfileCore_eq s1 u hu1 hpos, hp1, Except.map,
        hpdef]

/-- Witness for C7: user 5 in a store with no profiles — the first call
creates profile 50, the second returns the same id with no new record. -/
theorem ensureProfile_idempotent_witness :
    findUserRec { users := [⟨5, "u@v.w"⟩], profiles := [], items := [], nextId := 50 }
        (.num (5 : Nat)) = some ⟨5, "u@v.w"⟩
    ∧ ∃ pid s1,
        ensureProfileId { users := [⟨5, "u@v.w"⟩], profiles := [], items := [], nextId := 50 }
            (userJVal ⟨5, "u@v.w"⟩) = .ok (.num pid, s1)
        ∧ ensureProfileId s1 (userJVal ⟨5, "u@v.w"⟩) = .ok (.num pid, s1)
        ∧ ((profileOfUser { users := [⟨5, "u@v.w"⟩], profiles := [], items := [], nextId := 50 }
              (5 : Nat) = none
            ∧ s1.profiles = [] ++ [⟨50, some 5⟩]
            ∧ pid = 50)
           ∨ (∃ p, profileOfUser { users := [⟨5, "u@v.w"⟩], profiles := [], items := [], nextId := 50 }
                (5 : Nat) = some p ∧ s1 = { users := [⟨5, "u@v.w"⟩], profiles := [], items := [], nextId := 50 } ∧ pid = p.id)) :=
  ⟨by decide,
   ensureProfile_idempotent
     { users := [⟨5, "u@v.w"⟩], profiles := [], items := [], nextId := 50 }
     ⟨5, "u@v.w"⟩ (by decide) (by decide)⟩

/-! ### C9 — falsy-id bulk items are creates -/

/-- C9: in the collection bulk update, an array item whose `id` field is
absent or falsy (`null`, `0`, `false`, `""`, or a non-object item) is
pre-extracted as carrying no identifier (`item?.id || null` gives
`null`), and the loop step for it performs exactly a create — the new
record is appended with its owner relation set to the resolved profile
id, the existing records are untouched by this step, and no fetch,
ownership check or update happens for the item (the step issues the
single create operation and recurses). -/
theorem bulkItem_falsyId_creates (uid pid : Nat) (s : Store) (item : JVal)
    (rest : List (JVal × Option JVal))
    (h : ∀ v, item.getField "id" = some v → v.truthy = false) :
    jsIdOrNull item = none
    ∧ bulkLoop manyCfg uid (.num pid) s ((item, jsIdOrNull item) :: rest)
        = (match bulkLoop manyCfg uid (.num pid)
              (storeCreateItem s (spreadMerge (dataEntries item) [("profile", .num pid)])).1 rest with
           | .ok (l, s2, n) =>
             .ok (itemBaseJVal
               (storeCreateItem s (spreadMerge (dataEntries item) [("profile", .num pid)])).2 :: l,
               s2, n + 1)
           | .error (r, s2, n) => .error (r, s2, n + 1))
    ∧ (storeCreateItem s (spreadMerge (dataEntries item) [("profile", .num pid)])).1.items
        = s.items ++ [(storeCreateItem s (spreadMerge (dataEntries item) [("profile", .num pid)])).2]
    ∧ (storeCreateItem s (spreadMerge (dataEntries item) [("profile", .num pid)])).2.profileId
        = some pid := by
  have h0 : jsIdOrNull item = none := by
    unfold jsIdOrNull
    cases hf : item.getField "id" with
    | none => rfl
    | some v => simp [h v hf]
  refine ⟨h0, ?_, rfl, ?_⟩
  · rw [h0]
    rfl
  · show ((spreadMerge (dataEntries item) [("profile", .num pid)]).lookup "profile").bind
        relIdOfJVal = some pid
    rw [spreadMerge_lookup]
    cases ha : (dataEntries item).lookup "profile" <;>
      simp [List.lookup_cons, relIdOfJVal]

/-- Witness for C9: an item carrying the falsy identifier `id: 0`
alongside a field, in the bulk store, resolved profile 1. -/
theorem bulkItem_falsyId_creates_witness :
    jsIdOrNull (.obj [("id", .num 0), ("firstName", .str "Sarah")]) = none
    ∧ (storeCreateItem bulkStore
        (spreadMerge (dataEntries (.obj [("id", .num 0), ("firstName", .str "Sarah")]))
          [("profile", .num (1 : Nat))])).2.profileId = some 1 := by
  have h : ∀ v, (JVal.obj [("id", .num 0), ("firstName", .str "Sarah")]).getField "id" = some v
      → v.truthy = false := by
    intro v hv
    simp only [JVal.getField, List.lookup] at hv
    cases hv
    rfl
  have main := bulkItem_falsyId_creates 1 1 bulkStore
    (.obj [("id", .num 0), ("firstName", .str "Sarah")]) [] h
  exact ⟨main.1, main.2.2.2⟩

/-! ### C2 — bulk update is not all-or-nothing -/

/-- The failure test the bulk loop applies to one item in a given store:
an item with a (truthy) pre-extracted id fails when the record is absent
(`NotFound`) or its extracted owner does not match the resolved owner
user (`Forbidden`); the resulting aborting response. -/
def bulkStepFailure (cfg : Cfg) (ownerUserId : Nat) (s : Store) (x : JVal × Option JVal) :
    Option Response :=
  match x.2 with
  | none => none
  | some idv =>
    match findItem s idv with
    | none => some (.notFound ("Record with id " ++ idString idv ++ " not found"))
    | some ex =>
      if ¬ jsEqOpt (.num ownerUserId)
          (extractOwnerId (populatedItemJVal s ex cfg.ownerField) cfg.ownerField) then
        some (.forbidden ("You do not own the record with id " ++ idString idv))
      else none

/-- Counterexample to C2 as stated: a two-item payload whose second item
fails the ownership check still persists the first item's update.  The
request `[{id: 301, phone: "+9"}, {id: 999, phone: "x"}]` by principal 1
(who owns 301 but not 999) answers `Forbidden` — yet record 301's phone
has been changed to `"+9"` in the backing store, so a create/update from
the failing request WAS persisted. -/
theorem bulkUpdate_allOrNothing_counterexample :
    (updateCtrl manyCfg bulkStore (mkCtx 1 "user=a@b.c" (some bulkBadBody))).resp
      = .forbidden "You do not own the record with id 999"
    ∧ (updateCtrl manyCfg bulkStore (mkCtx 1 "user=a@b.c" (some bulkBadBody))).store.items
      = [⟨301, 301, some 1, [("phone", .str "+9")]⟩,
         ⟨999, 999, some 2, [("phone", .str "+2")]⟩]
    ∧ bulkStore.items
      = [⟨301, 301, some 1, [("phone", .str "+1")]⟩,
         ⟨999, 999, some 2, [("phone", .str "+2")]⟩] := by
  decide

/-- C2 (amended): the bulk update verifies each targeted item's
existence and ownership immediately before mutating THAT item, not
before any mutation: when a payload prefix processes successfully and
the next item fails the existence or ownership check, the whole loop
aborts with that item's `NotFound`/`Forbidden` — the prefix's mutations
remain persisted (the loop result carries exactly the store the prefix
produced) and the failing and later items cause no mutation. -/
theorem bulkLoop_failure_keeps_prefix (cfg : Cfg) (uid : Nat) (pidJ : JVal) (s : Store)
    (pre : List (JVal × Option JVal)) (x : JVal × Option JVal)
    (suf : List (JVal × Option JVal))
    (resL : List JVal) (s1 : Store) (n1 : Nat)
    (hok : bulkLoop cfg uid pidJ s pre = .ok (resL, s1, n1))
    (resp : Response) (hfail : bulkStepFailure cfg uid s1 x = some resp) :
    bulkLoop cfg uid pidJ s (pre ++ x :: suf) = .error (resp, s1, n1 + 1) := by
  induction pre generalizing s resL n1 with
  | nil =>
    simp only [bulkLoop, Except.ok.injEq, Prod.mk.injEq] at hok
    obtain ⟨-, rfl, rfl⟩ := hok
    obtain ⟨item, idOpt⟩ := x
    cases idOpt with
    | none => simp [bulkStepFailure] at hfail
    | some idv =>
      simp only [List.nil_append, bulkLoop]
      cases hfind : findItem s idv with
      | none =>
        have hval : bulkStepFailure cfg uid s (item, some idv)
            = some (.notFound ("Record with id " ++ idString idv ++ " not found")) := by
          simp [bulkStepFailure, hfind]
        rw [hval] at hfail
        obtain rfl := Option.some.inj hfail
        simp [hfind]
      | some ex =>
        cases hB : jsEqOpt (.num uid)
            (extractOwnerId (populatedItemJVal s ex cfg.ownerField) cfg.ownerField) with
        | true =>
          have hval : bulkStepFailure cfg uid s (item, some idv) = none := by
            simp [bulkStepFailure, hfind, hB]
          rw [hval] at hfail
          cases hfail
        | false =>
          have hval : bulkStepFailure cfg uid s (item, some idv)
              = some (.forbidden ("You do not own the record with id " ++ idString idv)) := by
            simp [bulkStepFailure, hfind, hB]
          rw [hval] at hfail
          obtain rfl := Option.some.inj hfail
          simp [hfind, hB]
  | cons y pre ih =>
    obtain ⟨item, idOpt⟩ := y
    cases idOpt with
    | none =>
      simp only [List.cons_append, bulkLoop] at hok ⊢
      cases hrec : bulkLoop cfg uid pidJ
          (storeCreateItem s (spreadMerge (dataEntries item) [(cfg.ownerField, pidJ)])).1 pre with
      | ok v =>
        obtain ⟨l, s2, n⟩ := v
        rw [hrec] at hok
        simp only [Except.ok.injEq, Prod.mk.injEq] at hok
        obtain ⟨-, rfl, rfl⟩ := hok
        have ihh := ih _ _ _ hrec
        simp only [List.append_eq] at ihh ⊢
        rw [ihh]
      | error e =>
        rw [hrec] at hok
        simp at hok
    | some idv =>
      simp only [List.cons_append, bulkLoop] at hok ⊢
      cases hfind : findItem s idv with
      | none =>
        simp only [hfind] at hok
        simp at hok
      | some ex =>
        simp only [hfind] at hok
        cases hB : jsEqOpt (.num uid)
            (extractOwnerId (populatedItemJVal s ex cfg.ownerField) cfg.ownerField) with
        | true =>
          simp only [hB] at hok
          rw [if_neg (by simp)] at hok
          dsimp only
          simp only [hB]
          rw [if_neg (by simp)]
          cases hrec : bulkLoop cfg uid pidJ
              (if ex.documentId ≠ 0
               then storeUpdateByDocId s ex.documentId (dataEntries item)
               else storeUpdateById s ex.id (dataEntries item)).1 pre with
          | ok v =>
            obtain ⟨l, s2, n⟩ := v
            rw [hrec] at hok
            simp only [Except.ok.injEq, Prod.mk.injEq] at hok
            obtain ⟨-, rfl, rfl⟩ := hok
            have ihh := ih _ _ _ hrec
            simp only [List.append_eq] at ihh ⊢
            rw [ihh]
          | error e =>
            rw [hrec] at hok
            simp at hok
        | false =>
          simp only [hB] at hok
          simp at hok

/-- Witness for the amended C2: the counterexample decomposed — prefix
`[{phone:+9} targeting 301]` succeeds with 301 mutated, the failing item
targets 999, and the loop aborts carrying exactly the prefix's store. -/
theorem bulkLoop_failure_keeps_prefix_witness :
    bulkLoop manyCfg 1 (.num 1) bulkStore
        ([(.obj [("phone", .str "+9")], some (.num 301))]
          ++ (.obj [("phone", .str "x")], some (.num 999)) :: [])
      = .error (.forbidden "You do not own the record with id 999",
          { users := [⟨1, "a@b.c"⟩, ⟨2, "z@b.c"⟩]
            profiles := [⟨1, some 1⟩, ⟨2, some 2⟩]
            items := [⟨301, 301, some 1, [("phone", .str "+9")]⟩,
                      ⟨999, 999, some 2, [("phone", .str "+2")]⟩]
            nextId := 1000 },
          2 + 1) :=
  bulkLoop_failure_keeps_prefix manyCfg 1 (.num 1) bulkStore
    [(.obj [("phone", .str "+9")], some (.num 301))]
    (.obj [("phone", .str "x")], some (.num 999)) []
    [.obj [("id", .num 301), ("documentId", .num 301), ("phone", .str "+9")]]
    { users := [⟨1, "a@b.c"⟩, ⟨2, "z@b.c"⟩]
      profiles := [⟨1, some 1⟩, ⟨2, some 2⟩]
      items := [⟨301, 301, some 1, [("phone", .str "+9")]⟩,
                ⟨999, 999, some 2, [("phone", .str "+2")]⟩]
      nextId := 1000 }
    2 (by decide)
    (.forbidden "You do not own the record with id 999") (by decide)

/-! ### C6 — owner-reference strip invariant -/

/-- The owner-preservation relation between one original record and its
image after a request: same id, same owner reference. -/
def sameOwner (r r' : ItemRec) : Prop :=
  r'.id = r.id ∧ r'.profileId = r.profileId

/-- The store-items part of the owner invariant: the current item list is
the original records (ids and owner references untouched, order kept)
followed by records created during the request, each owned by `pid`. -/
def OwnerSafe (base cur : List ItemRec) (pid : Nat) : Prop :=
  ∃ olds news, cur = olds ++ news
    ∧ List.Forall₂ sameOwner base olds
    ∧ ∀ r' ∈ news, r'.profileId = some pid

theorem ownerSafe_refl (base : List ItemRec) (pid : Nat) : OwnerSafe base base pid :=
  ⟨base, [], by simp, List.forall₂_same.2 (fun _ _ => ⟨rfl, rfl⟩), by simp⟩

theorem ownerSafe_map (base cur : List ItemRec) (pid : Nat) (f : ItemRec → ItemRec)
    (hfi : ∀ r, (f r).id = r.id) (hfp : ∀ r, (f r).profileId = r.profileId)
    (h : OwnerSafe base cur pid) : OwnerSafe base (cur.map f) pid := by
  obtain ⟨olds, news, rfl, hall, hnews⟩ := h
  refine ⟨olds.map f, news.map f, by simp, ?_, ?_⟩
  · exact List.forall₂_map_right_iff.2 (hall.imp fun a b hab =>
      ⟨(hfi b).trans hab.1, (hfp b).trans hab.2⟩)
  · intro r' hr'
    obtain ⟨r, hr, rfl⟩ := List.mem_map.1 hr'
    exact (hfp r).trans (hnews r hr)

theorem ownerSafe_append (base cur : List ItemRec) (pid : Nat) (newR : ItemRec)
    (hnew : newR.profileId = some pid)
    (h : OwnerSafe base cur pid) : OwnerSafe base (cur ++ [newR]) pid := by
  obtain ⟨olds, news, rfl, hall, hnews⟩ := h
  refine ⟨olds, news ++ [newR], by simp, hall, ?_⟩
  intro r' hr'
  rcases List.mem_append.1 hr' with h1 | h1
  · exact hnews r' h1
  · rw [List.mem_singleton.1 h1]
    exact hnew

/-- A payload stripped of a flat `"profile"` path carries no `"profile"`
entry (either every such entry was filtered out, or none existed). -/
theorem deleteByPath_profile_entries (v : JVal) :
    ∀ kv ∈ dataEntries (deleteByPath v "profile"), kv.1 ≠ "profile" := by
  intro kv hkv
  have hsplit : jsSplitDot "profile" = ["profile"] := by decide
  unfold deleteByPath at hkv
  rw [hsplit] at hkv
  cases v with
  | obj fs =>
    by_cases hs : (fs.lookup "profile").isSome
    · simp only [deleteByPathGo, hs, if_true, dataEntries] at hkv
      exact of_decide_eq_true (List.mem_filter.1 hkv).2
    · simp only [deleteByPathGo, hs, if_false, dataEntries] at hkv
      have := List.lookup_eq_none_iff.1 (Option.not_isSome_iff_eq_none.1 hs) kv hkv
      intro he
      rw [he] at this
      simp at this
  | null => simp [deleteByPathGo, dataEntries] at hkv
  | bool b => simp [deleteByPathGo, dataEntries] at hkv
  | num n => simp [deleteByPathGo, dataEntries] at hkv
  | str s => simp [deleteByPathGo, dataEntries] at hkv
  | arr l => simp [deleteByPathGo, dataEntries] at hkv

/-- The entries of the stripped top-level payload of `update` never
carry the owner key (for the repository's owner field `"profile"`). -/
theorem stripOwnerPayload_entries (b : Bool) (v : JVal) :
    ∀ kv ∈ dataEntries (stripOwnerPayload ⟨"profile", b⟩ v), kv.1 ≠ "profile" := by
  cases b <;> cases v <;>
    first
      | exact deleteByPath_profile_entries _
      | (intro kv hkv; simp [stripOwnerPayload, dataEntries] at hkv)

/-- A stripped collection payload is an array of items each of which
carries no owner entry. -/
theorem stripOwnerPayload_arr_entries (v : JVal) (items : List JVal)
    (h : stripOwnerPayload ⟨"profile", true⟩ v = .arr items) :
    ∀ it ∈ items, ∀ kv ∈ dataEntries it, kv.1 ≠ "profile" := by
  cases v with
  | arr l =>
    simp only [stripOwnerPayload] at h
    obtain rfl := (JVal.arr.inj h).symm
    intro it hit
    obtain ⟨w, hw, rfl⟩ := List.mem_map.1 hit
    exact deleteByPath_profile_entries w
  | obj fs =>
    exfalso
    simp only [stripOwnerPayload] at h
    unfold deleteByPath at h
    rw [show jsSplitDot "profile" = ["profile"] by decide] at h
    by_cases hs : (fs.lookup "profile").isSome <;>
      simp [deleteByPathGo, hs] at h
  | null => simp [stripOwnerPayload, deleteByPath, deleteByPathGo] at h
  | bool c => simp [stripOwnerPayload, deleteByPath, deleteByPathGo] at h
  | num n => simp [stripOwnerPayload, deleteByPath, deleteByPathGo] at h
  | str s => simp [stripOwnerPayload, deleteByPath, deleteByPathGo] at h

/-- Applying one non-owner payload field never changes id or owner. -/
theorem applyDataField_id (r : ItemRec) (k : String) (v : JVal) :
    (applyDataField r k v).id = r.id := by
  unfold applyDataField
  by_cases hk : k = "profile" <;> cases v <;> simp [hk]

/-- `applyData` never changes the record id. -/
theorem applyData_id (r : ItemRec) (data : List (String × JVal)) :
    (applyData r data).id = r.id := by
  induction data generalizing r with
  | nil => rfl
  | cons kv tl ih => rw [applyData, List.foldl_cons, ← applyData, ih, applyDataField_id]

/-- `applyData` with owner-free payload entries preserves the owner. -/
theorem applyData_profileId (r : ItemRec) (data : List (String × JVal))
    (h : ∀ kv ∈ data, kv.1 ≠ "profile") :
    (applyData r data).profileId = r.profileId := by
  induction data generalizing r with
  | nil => rfl
  | cons kv tl ih =>
    rw [applyData, List.foldl_cons, ← applyData,
      ih _ (fun x hx => h x (List.mem_cons_of_mem kv hx))]
    unfold applyDataField
    rw [if_neg (h kv (List.mem_cons_self kv tl))]

/-- Owner-safety transport through a documents-API update whose payload
carries no owner entry. -/
theorem ownerSafe_updateByDocId (base : List ItemRec) (s : Store) (pid d : Nat)
    (data : List (String × JVal)) (hdata : ∀ kv ∈ data, kv.1 ≠ "profile")
    (h : OwnerSafe base s.items pid) :
    OwnerSafe base (storeUpdateByDocId s d data).1.items pid := by
  apply ownerSafe_map base s.items pid _ _ _ h
  · intro r
    by_cases hr : r.documentId = d <;> simp [hr, applyData_id]
  · intro r
    by_cases hr : r.documentId = d <;> simp [hr, applyData_profileId _ _ hdata]

/-- Owner-safety transport through the legacy id-addressed update. -/
theorem ownerSafe_updateById (base : List ItemRec) (s : Store) (pid rid : Nat)
    (data : List (String × JVal)) (hdata : ∀ kv ∈ data, kv.1 ≠ "profile")
    (h : OwnerSafe base s.items pid) :
    OwnerSafe base (storeUpdateById s rid data).1.items pid := by
  apply ownerSafe_map base s.items pid _ _ _ h
  · intro r
    by_cases hr : r.id = rid <;> simp [hr, applyData_id]
  · intro r
    by_cases hr : r.id = rid <;> simp [hr, applyData_profileId _ _ hdata]

/-- A created record is owned by the profile its payload connects. -/
theorem storeCreateItem_profileId (s : Store) (data : List (String × JVal)) (pid : Nat)
    (hlook : data.lookup "profile" = some (.num pid)) :
    (storeCreateItem s data).2.profileId = some pid := by
  simp [storeCreateItem, hlook, relIdOfJVal]

/-- The owner entry appended by the bulk create resolves regardless of
the (owner-free) item entries. -/
theorem spreadMerge_profile_lookup (entries : List (String × JVal)) (pid : Nat)
    (h : ∀ kv ∈ entries, kv.1 ≠ "profile") :
    (spreadMerge entries [("profile", .num pid)]).lookup "profile" = some (.num pid) := by
  rw [spreadMerge_lookup]
  have hnone : entries.lookup "profile" = none :=
    List.lookup_eq_none_iff.2 (fun p hp => by simpa using (h p hp).symm)
  rw [hnone]
  simp [List.lookup_cons]

/-- The decomposition conclusion for an unchanged item list. -/
theorem ownerConcl_unchanged (base : List ItemRec) (items : List ItemRec)
    (P : ItemRec → Prop) (h : items = base) :
    ∃ olds news, items = olds ++ news ∧ List.Forall₂ sameOwner base olds
      ∧ ∀ r' ∈ news, P r' :=
  ⟨base, [], by simp [h], List.forall₂_same.2 (fun _ _ => ⟨rfl, rfl⟩), by simp⟩

/-- The decomposition conclusion for a documents-API update with an
owner-free payload: no record is created and no owner changes. -/
theorem ownerConcl_updateByDocId (s : Store) (d : Nat) (data : List (String × JVal))
    (hdata : ∀ kv ∈ data, kv.1 ≠ "profile") (P : ItemRec → Prop) :
    ∃ olds news, (storeUpdateByDocId s d data).1.items = olds ++ news
      ∧ List.Forall₂ sameOwner s.items olds ∧ ∀ r' ∈ news, P r' := by
  refine ⟨(storeUpdateByDocId s d data).1.items, [], by simp, ?_, by simp⟩
  show List.Forall₂ sameOwner s.items (s.items.map _)
  refine List.forall₂_map_right_iff.2 (List.forall₂_same.2 fun r hr => ?_)
  by_cases hd : r.documentId = d <;>
    simp [sameOwner, hd, applyData_id, applyData_profileId _ _ hdata]

/-- The decomposition conclusion for the legacy id-addressed update. -/
theorem ownerConcl_updateById (s : Store) (rid : Nat) (data : List (String × JVal))
    (hdata : ∀ kv ∈ data, kv.1 ≠ "profile") (P : ItemRec → Prop) :
    ∃ olds news, (storeUpdateById s rid data).1.items = olds ++ news
      ∧ List.Forall₂ sameOwner s.items olds ∧ ∀ r' ∈ news, P r' := by
  refine ⟨(storeUpdateById s rid data).1.items, [], by simp, ?_, by simp⟩
  show List.Forall₂ sameOwner s.items (s.items.map _)
  refine List.forall₂_map_right_iff.2 (List.forall₂_same.2 fun r hr => ?_)
  by_cases hd : r.id = rid <;>
    simp [sameOwner, hd, applyData_id, applyData_profileId _ _ hdata]

/-- Profile provisioning touches only the profiles list: items and users
are unchanged. -/
theorem ensureProfileCore_items (s : Store) (u : JVal) (p : ProfileRec) (s1 : Store)
    (h : ensureProfileCore s u = .ok (p, s1)) : s1.items = s.items ∧ s1.users = s.users := by
  unfold ensureProfileCore at h
  split at h
  · cases h
  · split at h
    · cases h
    · split at h
      · split at h
        · cases h
          exact ⟨rfl, rfl⟩
        · cases h
          exact ⟨rfl, rfl⟩
      · cases h
        exact ⟨rfl, rfl⟩

/-- Pairing items with their pre-extracted ids keeps the owner-free
property of the items. -/
theorem zip_entries_profile_free (items : List JVal) (ids : List (Option JVal))
    (hitems : ∀ it ∈ items, ∀ kv ∈ dataEntries it, kv.1 ≠ "profile") :
    ∀ q ∈ items.zip ids, ∀ kv ∈ dataEntries q.1, kv.1 ≠ "profile" := by
  intro q hq
  obtain ⟨a, c⟩ := q
  exact hitems a (List.of_mem_zip hq).1

/-- The store a bulk-loop outcome carries (both on success and at an
abort). -/
def bulkResultStore : Except (Response × Store × Nat) (List JVal × Store × Nat) → Store
  | .ok (_, st, _) => st
  | .error (_, st, _) => st

/-- The bulk loop keeps the owner invariant: it never changes the id or
owner reference of a pre-existing record, and every record it creates is
owned by the resolved profile. -/
theorem bulkLoop_ownerSafe (b : Bool) (uid pid : Nat) (base : List ItemRec)
    (pairs : List (JVal × Option JVal))
    (hpairs : ∀ p ∈ pairs, ∀ kv ∈ dataEntries p.1, kv.1 ≠ "profile") :
    ∀ s : Store, OwnerSafe base s.items pid →
      OwnerSafe base (bulkResultStore (bulkLoop ⟨"profile", b⟩ uid (.num pid) s pairs)).items pid := by
  induction pairs with
  | nil =>
    intro s hs
    exact hs
  | cons p rest ih =>
    intro s hs
    obtain ⟨item, idOpt⟩ := p
    have hitem : ∀ kv ∈ dataEntries item, kv.1 ≠ "profile" :=
      hpairs (item, idOpt) (List.mem_cons_self _ _)
    have hrest : ∀ q ∈ rest, ∀ kv ∈ dataEntries q.1, kv.1 ≠ "profile" :=
      fun q hq => hpairs q (List.mem_cons_of_mem _ hq)
    cases idOpt with
    | none =>
      simp only [bulkLoop]
      have hcreated : (storeCreateItem s
          (spreadMerge (dataEntries item) [("profile", .num pid)])).2.profileId = some pid :=
        storeCreateItem_profileId _ _ _ (spreadMerge_profile_lookup _ _ hitem)
      have hnext : OwnerSafe base (storeCreateItem s
          (spreadMerge (dataEntries item) [("profile", .num pid)])).1.items pid :=
        ownerSafe_append _ _ _ _ hcreated hs
      have := ih hrest _ hnext
      cases hrec : bulkLoop ⟨"profile", b⟩ uid (.num pid)
          (storeCreateItem s (spreadMerge (dataEntries item) [("profile", .num pid)])).1 rest with
      | ok v =>
        obtain ⟨l, s2, n⟩ := v
        rw [hrec] at this
        exact this
      | error e =>
        obtain ⟨r, s2, n⟩ := e
        rw [hrec] at this
        exact this
    | some idv =>
      simp only [bulkLoop]
      cases hfind : findItem s idv with
      | none => exact hs
      | some ex =>
        dsimp only
        cases hB : jsEqOpt (.num uid)
            (extractOwnerId (populatedItemJVal s ex "profile") "profile") with
        | false =>
          rw [if_pos (by simp [hB])]
          exact hs
        | true =>
          rw [if_neg (by simp [hB])]
          have hnext : OwnerSafe base
              ((if ex.documentId ≠ 0
                then storeUpdateByDocId s ex.documentId (dataEntries item)
                else storeUpdateById s ex.id (dataEntries item)).1.items) pid := by
            by_cases hd : ex.documentId ≠ 0
            · rw [if_pos hd]
              exact ownerSafe_updateByDocId _ _ _ _ _ hitem hs
            · rw [if_neg hd]
              exact ownerSafe_updateById _ _ _ _ _ hitem hs
          have := ih hrest _ hnext
          cases hrec : bulkLoop ⟨"profile", b⟩ uid (.num pid)
              (if ex.documentId ≠ 0
               then storeUpdateByDocId s ex.documentId (dataEntries item)
               else storeUpdateById s ex.id (dataEntries item)).1 rest with
          | ok v =>
            obtain ⟨l, s2, n⟩ := v
            rw [hrec] at this
            exact this
          | error e =>
            obtain ⟨r, s2, n⟩ := e
            rw [hrec] at this
            exact this

/-! ### C6 main theorem -/

/-- Converts the owner-safety decomposition into the claim's final form
tied to the request's resolved profile. -/
theorem ownerConcl_of_safe (base items : List ItemRec) (pid : Nat) (rp : Option Nat)
    (h : OwnerSafe base items pid) (hrp : rp = some pid) :
    ∃ olds news, items = olds ++ news ∧ List.Forall₂ sameOwner base olds
      ∧ ∀ r' ∈ news, ∃ q, rp = some q ∧ r'.profileId = some q := by
  obtain ⟨olds, news, rfl, hall, hnews⟩ := h
  exact ⟨olds, news, rfl, hall, fun r' hr' => ⟨pid, hrp, hnews r' hr'⟩⟩

/-- C6: for every update request and payload (singleton object or
collection array), the owner-reference field is stripped from every
sanitized item before persistence: the update leaves every pre-existing
record's id and owner reference untouched (in order), and every record
the request creates is owned by exactly the Profile id the request
resolved via `ensureProfileId` — regardless of any owner-reference value
the caller supplied in the payload. -/
theorem updateCtrl_ownerStrip (b : Bool) (s : Store) (ctx : Ctx) :
    ∃ olds news,
      (updateCtrl ⟨"profile", b⟩ s ctx).store.items = olds ++ news
      ∧ List.Forall₂ sameOwner s.items olds
      ∧ ∀ r' ∈ news, ∃ pid,
          (updateCtrl ⟨"profile", b⟩ s ctx).resolvedProfile = some pid
          ∧ r'.profileId = some pid := by
  simp only [updateCtrl]
  split
  · exact ownerConcl_unchanged s.items _ _ rfl
  · rename_i bd hbd
    split
    · exact ownerConcl_unchanged s.items _ _ rfl
    · split
      · -- Branch A: direct id
        split
        · exact ownerConcl_unchanged s.items _ _ rfl
        · split
          · exact ownerConcl_unchanged s.items _ _ rfl
          · rename_i x r hfound hown
            dsimp only
            by_cases hd : r.documentId ≠ 0
            · rw [if_pos hd]
              exact ownerConcl_updateByDocId s _ _ (stripOwnerPayload_entries b _) _
            · rw [if_neg hd]
              exact ownerConcl_updateById s _ _ (stripOwnerPayload_entries b _) _
      · -- Branch B: email
        split
        · exact ownerConcl_unchanged s.items _ _ rfl
        · split
          · exact ownerConcl_unchanged s.items _ _ rfl
          · split
            · exact ownerConcl_unchanged s.items _ _ rfl
            · rename_i em hparse ownerUser huser hag ep p s1 hcore
              have hitems1 : s1.items = s.items :=
                (ensureProfileCore_items s _ p s1 hcore).1
              have hsafe0 : OwnerSafe s.items s1.items p.id := by
                rw [hitems1]
                exact ownerSafe_refl s.items p.id
              split
              · -- ownerHasMany = true: bulk loop
                rename_i hb
                subst hb
                split
                · rename_i items heqarr
                  have hstrip : ∀ it ∈ items, ∀ kv ∈ dataEntries it, kv.1 ≠ "profile" :=
                    stripOwnerPayload_arr_entries _ items heqarr
                  have hloop := bulkLoop_ownerSafe true ownerUser.id p.id s.items
                    (items.zip (extractBulkIds ⟨"profile", true⟩ bd
                      ++ List.replicate
                          (items.length - (extractBulkIds ⟨"profile", true⟩ bd).length) none))
                    (zip_entries_profile_free items _ hstrip) s1 hsafe0
                  split
                  · rename_i v l s2 n heqloop
                    rw [heqloop] at hloop
                    dsimp only
                    exact ownerConcl_of_safe s.items _ p.id _ hloop rfl
                  · rename_i v rr s2 n heqloop
                    rw [heqloop] at hloop
                    dsimp only
                    exact ownerConcl_of_safe s.items _ p.id _ hloop rfl
                · exact ownerConcl_unchanged s.items _ _ hitems1
              · -- ownerHasMany = false: singleton
                cases hres : List.take 1 (storeFindItems s1
                    [("profile", JVal.obj [("id", JVal.num p.id)])]) with
                | nil =>
                  dsimp only
                  have hcreated : (storeCreateItem s1
                      [("profile", JVal.num p.id)]).2.profileId = some p.id :=
                    storeCreateItem_profileId _ _ _ (by simp [List.lookup_cons])
                  have hsafe1 : OwnerSafe s.items
                      (storeCreateItem s1 [("profile", JVal.num p.id)]).1.items p.id :=
                    ownerSafe_append _ _ _ _ hcreated hsafe0
                  by_cases hz : (storeCreateItem s1 [("profile", JVal.num p.id)]).2.documentId = 0
                  · rw [if_pos hz]
                    dsimp only
                    exact ownerConcl_of_safe s.items _ p.id _ hsafe1 rfl
                  · rw [if_neg hz]
                    dsimp only
                    exact ownerConcl_of_safe s.items _ p.id _
                      (ownerSafe_updateByDocId s.items _ p.id _ _
                        (stripOwnerPayload_entries b _) hsafe1) rfl
                | cons r tail =>
                  dsimp only
                  by_cases hz : r.documentId = 0
                  · rw [if_pos hz]
                    dsimp only
                    exact ownerConcl_unchanged s.items _ _ hitems1
                  · rw [if_neg hz]
                    dsimp only
                    exact ownerConcl_of_safe s.items _ p.id _
                      (ownerSafe_updateByDocId s.items s1 p.id _ _
                        (stripOwnerPayload_entries b _) hsafe0) rfl

/-! ### C3 — two-phase bulk delete (spec-modelled) -/

/-- The verification phase succeeds exactly when every targeted id
resolves to an existing record owned by the resolved principal. -/
theorem verifyTargets_none_iff (s : Store) (uid : Nat) (ids : List JVal) :
    verifyTargets s uid ids = none
    ↔ ∀ idv ∈ ids, ∃ r, findItem s idv = some r ∧ specOwnerPrincipal s r = some uid := by
  induction ids with
  | nil => simp [verifyTargets]
  | cons idv rest ih =>
    simp only [verifyTargets]
    cases hf : findItem s idv with
    | none =>
      simp only [List.mem_cons]
      constructor
      · intro h
        cases h
      · intro h
        obtain ⟨r, hr, -⟩ := h idv (Or.inl rfl)
        rw [hf] at hr
        cases hr
    | some ex =>
      dsimp only
      by_cases hp : specOwnerPrincipal s ex = some uid
      · rw [if_neg (by simp [hp])]
        rw [ih]
        constructor
        · intro h idw hw
          rcases List.mem_cons.1 hw with rfl | hw'
          · exact ⟨ex, hf, hp⟩
          · exact h idw hw'
        · intro h idw hw
          exact h idw (List.mem_cons_of_mem _ hw)
      · rw [if_pos (by simp [hp])]
        constructor
        · intro h
          cases h
        · intro h
          obtain ⟨r, hr, hro⟩ := h idv (List.mem_cons_self _ _)
          rw [hf] at hr
          cases hr
          exact absurd hro hp

/-- A failing verification phase aborts with `NotFound` or `Forbidden`. -/
theorem verifyTargets_some_shape (s : Store) (uid : Nat) (ids : List JVal) (r : Response)
    (h : verifyTargets s uid ids = some r) :
    (∃ m, r = .notFound m) ∨ (∃ m, r = .forbidden m) := by
  induction ids with
  | nil => cases h
  | cons idv rest ih =>
    simp only [verifyTargets] at h
    cases hf : findItem s idv with
    | none =>
      rw [hf] at h
      exact Or.inl ⟨_, (Option.some.inj h).symm⟩
    | some ex =>
      rw [hf] at h
      dsimp only at h
      by_cases hp : specOwnerPrincipal s ex = some uid
      · rw [if_neg (by simp [hp])] at h
        exact ih h
      · rw [if_pos (by simp [hp])] at h
        exact Or.inr ⟨_, (Option.some.inj h).symm⟩

/-- C3 (settled against the spec-modelled delete, whose implementation is
not among the provided sources): the indirection-bulk delete is
two-phase.  Profile resolution never touches the items; whenever some
targeted id fails the existence-or-ownership check, the whole operation
aborts with `NotFound` or `Forbidden` and zero deletions are performed
(the backing items are exactly as before the request); and only when
every targeted id passes are all targeted items deleted, with the full
set of deleted records returned. -/
theorem deleteCtrlSpec_twoPhase (s : Store) (ctx : Ctx) (ownerUser : UserRec)
    (emailRaw : String) (entries : List JVal) (p : ProfileRec) (s1 : Store)
    (hparse : parseEmailParam ctx.paramsId "user" = some emailRaw)
    (hfind : findUserByEmail s (jsToLower emailRaw) = some ownerUser)
    (hag : ensureAgentId ctx = ⟨.num ownerUser.id, false⟩)
    (hbody : ctx.bodyData = some (.arr entries))
    (hcore : ensureProfileCore s (userJVal ownerUser) = .ok (p, s1))
    (hids : entries.filterMap targetIdOf ≠ []) :
    s1.items = s.items
    ∧ ((∃ idv ∈ entries.filterMap targetIdOf,
          ∀ r, ¬ (findItem s1 idv = some r ∧ specOwnerPrincipal s1 r = some ownerUser.id))
        → ((∃ m, (deleteCtrlSpec ⟨"profile", true⟩ s ctx).resp = .notFound m)
            ∨ (∃ m, (deleteCtrlSpec ⟨"profile", true⟩ s ctx).resp = .forbidden m))
          ∧ (deleteCtrlSpec ⟨"profile", true⟩ s ctx).store.items = s.items)
    ∧ ((∀ idv ∈ entries.filterMap targetIdOf,
          ∃ r, findItem s1 idv = some r ∧ specOwnerPrincipal s1 r = some ownerUser.id)
        → (deleteCtrlSpec ⟨"profile", true⟩ s ctx).store.items
            = s.items.filter (fun r =>
                ¬ (entries.filterMap targetIdOf).any (fun idv => idMatches idv r.id))
          ∧ (deleteCtrlSpec ⟨"profile", true⟩ s ctx).resp
            = .dataList (((entries.filterMap targetIdOf).filterMap (findItem s1)).map
                itemBaseJVal)) := by
  have hitems1 : s1.items = s.items := (ensureProfileCore_items s _ p s1 hcore).1
  have hagu : (ensureAgentId ctx).unauthorized = false := by rw [hag]
  have hagv : (ensureAgentId ctx).val = .num ownerUser.id := by rw [hag]
  have hout : deleteCtrlSpec ⟨"profile", true⟩ s ctx
      = match verifyTargets s1 ownerUser.id (entries.filterMap targetIdOf) with
        | some failResp =>
          { resp := failResp, store := s1,
            calls := 3 + (entries.filterMap targetIdOf).length
            unauthorizedSignalled := false, resolvedProfile := some p.id }
        | none =>
          { resp := .dataList (((entries.filterMap targetIdOf).filterMap (findItem s1)).map
              itemBaseJVal)
            store := { s1 with items := s1.items.filter (fun r =>
              ¬ (entries.filterMap targetIdOf).any (fun idv => idMatches idv r.id)) }
            calls := 3 + 2 * (entries.filterMap targetIdOf).length
            unauthorizedSignalled := false, resolvedProfile := some p.id } := by
    simp only [deleteCtrlSpec, hparse, hfind, hcore, hbody, hagu, hagv]
    rw [if_neg (by simp), if_neg (by simp), if_neg (by simp [jsEq]),
      if_neg (by simpa [List.isEmpty_iff] using hids)]
  refine ⟨hitems1, ?_, ?_⟩
  · intro hfail
    have hsome : verifyTargets s1 ownerUser.id (entries.filterMap targetIdOf) ≠ none := by
      rw [Ne, verifyTargets_none_iff]
      intro hall
      obtain ⟨idv, hmem, hbad⟩ := hfail
      obtain ⟨r, hr⟩ := hall idv hmem
      exact hbad r hr
    obtain ⟨failResp, hfr⟩ := Option.ne_none_iff_exists'.1 hsome
    rw [hout, hfr]
    exact ⟨verifyTargets_some_shape _ _ _ _ hfr, hitems1⟩
  · intro hpass
    have hnone : verifyTargets s1 ownerUser.id (entries.filterMap targetIdOf) = none :=
      (verifyTargets_none_iff _ _ _).2 hpass
    rw [hout, hnone]
    exact ⟨by rw [hitems1], rfl⟩

/-- Store for the bulk-delete scenario: caller 1 owns contacts 301 and
302 via profile 10; contact 999 belongs to principal 2 via profile 20. -/
def delStore : Store :=
  { users := [⟨1, "a@b.c"⟩, ⟨2, "z@b.c"⟩]
    profiles := [⟨10, some 1⟩, ⟨20, some 2⟩]
    items := [⟨301, 301, some 10, []⟩, ⟨302, 302, some 10, []⟩, ⟨999, 999, some 20, []⟩]
    nextId := 1000 }

/-- Witness for C3 at the spec's own example: the bulk delete of
`[301, 302, 999]` by principal 1, where 999 is not owned by the caller's
profile, leaves the backing items exactly unchanged (zero deletions). -/
theorem deleteCtrlSpec_twoPhase_witness :
    (deleteCtrlSpec ⟨"profile", true⟩ delStore
        (mkCtx 1 "user=a@b.c" (some (.arr [.num 301, .num 302, .num 999])))).store.items
      = delStore.items := by
  have main := deleteCtrlSpec_twoPhase delStore
    (mkCtx 1 "user=a@b.c" (some (.arr [.num 301, .num 302, .num 999])))
    ⟨1, "a@b.c"⟩ "a@b.c" [.num 301, .num 302, .num 999] ⟨10, some 1⟩ delStore
    (by decide) (by decide) (by decide) (by decide) (by decide) (by decide)
  refine (main.2.1 ⟨.num 999, by decide, fun r hr => ?_⟩).2
  obtain ⟨h1, h2⟩ := hr
  have heval : findItem delStore (.num 999) = some ⟨999, 999, some 20, []⟩ := by decide
  rw [heval] at h1
  cases Option.some.inj h1
  exact absurd h2 (by decide)

end StrapiExplore
